import Mathlib

/-!
# CouchbaseCluster (lib/cluster.js)

A shallow embedding of the connection coordinator of `lib/cluster.js`.

The JavaScript object is modelled by explicit state passing:

* `this.options.buckets` is the list of own entries of the configured mapping;
* `this.buckets` is the list of own entries of the slot object, which is created as the
  plain object `{}` and therefore inherits the members of `Object.prototype`;
* every call of `this.cluster.openBucket` creates a new bucket object, kept in a heap
  (`handles`) and referred to by its index;
* every promise made by `new Promise(...)` is a cell of `promises`;
* the `connect` and `error` notifications of a bucket object are steps of the environment.
-/

namespace CouchbaseCluster

/-! ## Data model -/

/-- Entry `options.buckets.<NAME>`: the bucket name and the optional password. -/
structure BucketConfig where
  bucket : String
  password : Option String
deriving DecidableEq, Repr

/-- What is found under `options.buckets` when the constructor runs. -/
inductive BucketsValue where
  /-- The property is absent (`undefined`). -/
  | missing
  /-- The value `null` or a primitive (number, string, boolean). -/
  | nonObject
  /-- An object that is not a plain object: an array, a function, a class instance. -/
  | nonPlain
  /-- A plain object with the given own entries. -/
  | plain (entries : List (String × BucketConfig))
deriving DecidableEq, Repr

/-- The `options` object handed to the constructor. -/
structure Options where
  host : Option String
  buckets : BucketsValue
deriving DecidableEq, Repr

/-- Errors thrown by the module, one constructor per `Error` of the source, and the errors
handed over by the underlying client. -/
inductive Err where
  /-- The error `Error('Can NOT create empty cluster with no buckets.')`. -/
  | emptyCluster
  /-- The error `Error('The bucket (' + name + ') does not exists')`. -/
  | doesNotExist (name : String)
  /-- The error `Error('There is no config record for the bucket: ' + name)`. -/
  | noConfigRecord (name : String)
  /-- A `TypeError` of the language: calling a value that is not a function, or reading a
  property of `undefined`. -/
  | typeError
  /-- An error passed to the `error` listeners of a bucket object by the client. -/
  | connectError (code : Nat)
  /-- An error with which a canary write (`upsertAsync`) is rejected by the client. -/
  | writeError (code : Nat)
deriving DecidableEq, Repr

/-- The value of the expression `this.buckets[name]`. -/
inductive Value where
  /-- No such property, own or inherited. -/
  | undefined
  /-- The bucket object created by the `h`-th call of `cluster.openBucket`. -/
  | bucket (h : Nat)
  /-- The member `key` of `Object.prototype`, found through the prototype chain. -/
  | inherited (key : String)
deriving DecidableEq, Repr

/-- Truthiness of a value: only `undefined` is falsy here (objects and functions are truthy). -/
def Value.truthy : Value → Bool
  | .undefined => false
  | .bucket _ => true
  | .inherited _ => true

/-- Settled state of a promise. -/
inductive Settled where
  | fulfilled (v : Value)
  | rejected (e : Err)
deriving DecidableEq, Repr

/-- The promise returned by `openBucket`. -/
inductive Future where
  /-- The promise `Promise.resolve(v)`. -/
  | resolved (v : Value)
  /-- The promise `Promise.reject(e)`. -/
  | rejected (e : Err)
  /-- The promise made by `new Promise(...)`, cell `p` of the state. -/
  | cell (p : Nat)
deriving DecidableEq, Repr

/-- What a synchronous call does: it returns a value or throws. -/
inductive Outcome (α : Type) where
  | returned (a : α)
  | thrown (e : Err)
deriving DecidableEq, Repr

/-- Listeners registered on the `connect` event of a bucket object. -/
inductive ConnectListener where
  /-- Listener of `$openBucketSync`: `self.emit('connect', self.buckets[name])`. -/
  | emitConnect (name : String)
  /-- Listener of `$openBucket`: `Promise.promisifyAll(self.buckets[name]);
  resolve(self.buckets[name])`. -/
  | resolveWith (p : Nat) (name : String)
deriving DecidableEq, Repr

/-- Listeners registered on the `error` event of a bucket object. -/
inductive ErrorListener where
  /-- Listener of `$openBucketSync`: `self.emit('error', err)`. -/
  | emitError
  /-- Listener of `$openBucket`: `reject`. -/
  | rejectWith (p : Nat)
deriving DecidableEq, Repr

/-- A bucket object returned by `cluster.openBucket(bucket, password)`, with the two
arguments of the call (`none` is `undefined`). The field `connected` is kept by the client
library. -/
structure Bucket where
  bucket : Option String
  password : Option String
  connected : Bool
  promisified : Bool
  onConnect : List ConnectListener
  onError : List ErrorListener
deriving DecidableEq, Repr

/-- State of a `CouchbaseCluster` object together with the objects it created. -/
structure Cluster where
  /-- The field `this.options.host`. -/
  host : Option String
  /-- Own entries of `this.options.buckets`. -/
  options : List (String × BucketConfig)
  /-- Own entries of `this.buckets`, in insertion order. -/
  buckets : List (String × Nat)
  /-- The bucket objects created so far, one per call of `cluster.openBucket`. -/
  handles : List Bucket
  /-- For every call of `cluster.openBucket`, the name it was made for. -/
  connectCalls : List String
  /-- The cells of the promises made by `$openBucket`; `none` is pending. -/
  promises : List (Option Settled)
  /-- Observers subscribed to the `connect` event of the cluster. -/
  observers : List Nat
  /-- Every delivery of a `connect` event of the cluster: observer and payload. -/
  delivered : List (Nat × Value)
  /-- The errors emitted as `error` events of the cluster. -/
  emittedErrors : List Err
deriving DecidableEq, Repr

/-! ## Construction -/

/-- The function `_.isPlainObject`. -/
def isPlainObject : BucketsValue → Bool
  | .plain _ => true
  | _ => false

/-- The function `_.isEmpty` on a plain object: no own entry. It is only evaluated behind
`!_.isPlainObject(...) ||`, so its value elsewhere is never used. -/
def isEmpty : BucketsValue → Bool
  | .plain entries => entries.isEmpty
  | _ => true

/-- The constructor `new CouchbaseCluster(options)`; `none` is an absent `options` (any
falsy value, replaced by `{}`). The call `new Couchbase.Cluster(host)` of the client library
is taken to return. -/
def new (options : Option Options) : Outcome Cluster :=
  let opts : Options := options.getD { host := none, buckets := .missing }
  if !isPlainObject opts.buckets || isEmpty opts.buckets then
    .thrown .emptyCluster
  else
    match opts.buckets with
    | .plain entries =>
      .returned
        { host := opts.host, options := entries, buckets := [], handles := [],
          connectCalls := [], promises := [], observers := [], delivered := [],
          emittedErrors := [] }
    | _ => .thrown .emptyCluster

/-- The factory `CouchbaseCluster.build(opt)`. -/
def build (opt : Option Options) : Outcome Cluster :=
  new opt

/-! ## Property access -/

/-- Names of the members of `Object.prototype`, which every plain object inherits. -/
def objectPrototypeKeys : List String :=
  ["constructor", "__defineGetter__", "__defineSetter__", "hasOwnProperty",
   "__lookupGetter__", "__lookupSetter__", "isPrototypeOf", "propertyIsEnumerable",
   "toString", "valueOf", "__proto__", "toLocaleString"]

/-- The expression `this.buckets[name]`: the own entry when there is one, else the member
inherited from `Object.prototype`, else `undefined`. -/
def Cluster.bucketAt (s : Cluster) (name : String) : Value :=
  match s.buckets.lookup name with
  | some h => .bucket h
  | none => if objectPrototypeKeys.contains name then .inherited name else .undefined

/-- The value of the expression `this.options.buckets[name]`. -/
inductive ConfigValue where
  /-- No such property, own or inherited. -/
  | undefined
  /-- The own entry of the configured mapping. -/
  | entry (o : BucketConfig)
  /-- The member `key` of `Object.prototype`, found through the prototype chain. -/
  | inherited (key : String)
deriving DecidableEq, Repr

/-- The expression `this.options.buckets[name]`. -/
def Cluster.configAt (s : Cluster) (name : String) : ConfigValue :=
  match s.options.lookup name with
  | some o => .entry o
  | none => if objectPrototypeKeys.contains name then .inherited name else .undefined

/-- The call `this.options.buckets.hasOwnProperty(name)`. The method is looked up on the
configured mapping itself: an own entry called `hasOwnProperty` hides the inherited method
and, being a configuration record, is not callable. -/
def hasOwnPropertyCall (options : List (String × BucketConfig)) (name : String) :
    Outcome Bool :=
  match options.lookup "hasOwnProperty" with
  | some _ => .thrown .typeError
  | none => .returned (options.lookup name).isSome

/-- The assignment `this.buckets[name] = h` on the own entries. -/
def setOwn : List (String × Nat) → String → Nat → List (String × Nat)
  | [], name, h => [(name, h)]
  | (k, v) :: rest, name, h =>
    if k == name then (k, h) :: rest else (k, v) :: setOwn rest name h

/-! ## Public operations -/

/-- The method `get(name)`. -/
def get (s : Cluster) (name : String) : Outcome Value :=
  if !(s.bucketAt name).truthy then
    .thrown (.doesNotExist name)
  else
    .returned (s.bucketAt name)

/-- The bucket object made by `cluster.openBucket(options.bucket, options.password)` in
`$openBucketSync`, with its two listeners; `Promise.promisifyAll` is applied at once. The
call of the client library is taken to return a new object that is not yet connected. -/
def syncBucket (name : String) (bucket password : Option String) : Bucket :=
  { bucket := bucket, password := password, connected := false, promisified := true,
    onConnect := [.emitConnect name], onError := [.emitError] }

/-- The bucket object made by `cluster.openBucket(options.bucket, options.password)` in
`$openBucket`, with its two listeners on the promise cell `p`. -/
def asyncBucket (name : String) (p : Nat) (bucket password : Option String) : Bucket :=
  { bucket := bucket, password := password, connected := false, promisified := false,
    onConnect := [.resolveWith p name], onError := [.rejectWith p] }

/-- The private method `$openBucketSync(name)`. Reading `options.bucket` throws a
`TypeError` when `options` is `undefined`, and gives `undefined` when `options` is an
inherited member. The assignment to `this.buckets[name]` makes an own entry (the public
methods never pass on the name `__proto__`, for which it would not). -/
def dollarOpenBucketSync (s : Cluster) (name : String) : Cluster × Outcome Value :=
  match s.configAt name with
  | .undefined => (s, .thrown .typeError)
  | .entry o =>
    let s1 : Cluster :=
      { s with buckets := setOwn s.buckets name s.handles.length,
               handles := s.handles ++ [syncBucket name (some o.bucket) o.password],
               connectCalls := s.connectCalls ++ [name] }
    (s1, .returned (s1.bucketAt name))
  | .inherited _ =>
    let s1 : Cluster :=
      { s with buckets := setOwn s.buckets name s.handles.length,
               handles := s.handles ++ [syncBucket name none none],
               connectCalls := s.connectCalls ++ [name] }
    (s1, .returned (s1.bucketAt name))

/-- The private method `$openBucket(name)`; the executor of the promise runs at once, and a
`TypeError` thrown inside it (reading `options.bucket` when `options` is `undefined`)
rejects the promise. -/
def dollarOpenBucket (s : Cluster) (name : String) : Cluster × Outcome Future :=
  match s.configAt name with
  | .undefined => (s, .returned (.rejected .typeError))
  | .entry o =>
    let s1 : Cluster :=
      { s with buckets := setOwn s.buckets name s.handles.length,
               handles := s.handles ++
                 [asyncBucket name s.promises.length (some o.bucket) o.password],
               connectCalls := s.connectCalls ++ [name],
               promises := s.promises ++ [none] }
    (s1, .returned (.cell s.promises.length))
  | .inherited _ =>
    let s1 : Cluster :=
      { s with buckets := setOwn s.buckets name s.handles.length,
               handles := s.handles ++ [asyncBucket name s.promises.length none none],
               connectCalls := s.connectCalls ++ [name],
               promises := s.promises ++ [none] }
    (s1, .returned (.cell s.promises.length))

/-- The method `openBucketSync(name)`. -/
def openBucketSync (s : Cluster) (name : String) : Cluster × Outcome Value :=
  if (s.bucketAt name).truthy then
    (s, .returned (s.bucketAt name))
  else
    match hasOwnPropertyCall s.options name with
    | .thrown e => (s, .thrown e)
    | .returned false => (s, .thrown (.noConfigRecord name))
    | .returned true => dollarOpenBucketSync s name

/-- The method `openBucket(name)`. -/
def openBucket (s : Cluster) (name : String) : Cluster × Outcome Future :=
  if (s.bucketAt name).truthy then
    (s, .returned (.resolved (s.bucketAt name)))
  else
    match hasOwnPropertyCall s.options name with
    | .thrown e => (s, .thrown e)
    | .returned false => (s, .returned (.rejected (.noConfigRecord name)))
    | .returned true => dollarOpenBucket s name

/-- Subscription `cluster.on('connect', observer)`. -/
def subscribe (s : Cluster) (observer : Nat) : Cluster :=
  { s with observers := s.observers ++ [observer] }

/-! ## Notifications of the underlying bucket objects -/

/-- Settling a promise cell: only a pending cell changes. -/
def settle (ps : List (Option Settled)) (p : Nat) (r : Settled) : List (Option Settled) :=
  match ps.get? p with
  | some none => ps.set p (some r)
  | _ => ps

/-- The call `Promise.promisifyAll(v)`. -/
def promisifyAll (hs : List Bucket) : Value → List Bucket
  | .bucket h =>
    match hs.get? h with
    | some b => hs.set h { b with promisified := true }
    | none => hs
  | _ => hs

/-- Running one `connect` listener of a bucket object. -/
def runConnectListener (s : Cluster) : ConnectListener → Cluster
  | .emitConnect name =>
    { s with delivered := s.delivered ++ s.observers.map (fun o => (o, s.bucketAt name)) }
  | .resolveWith p name =>
    { s with handles := promisifyAll s.handles (s.bucketAt name),
             promises := settle s.promises p (.fulfilled (s.bucketAt name)) }

/-- Running one `error` listener of a bucket object. The errors emitted on the cluster are
recorded whether or not an observer listens for them. -/
def runErrorListener (err : Err) (s : Cluster) : ErrorListener → Cluster
  | .emitError => { s with emittedErrors := s.emittedErrors ++ [err] }
  | .rejectWith p => { s with promises := settle s.promises p (.rejected err) }

/-- The bucket object `h` signals `connect`: the client marks it connected and its
`connect` listeners run in registration order. -/
def connectEvent (s : Cluster) (h : Nat) : Cluster :=
  match s.handles.get? h with
  | none => s
  | some b =>
    b.onConnect.foldl runConnectListener
      { s with handles := s.handles.set h { b with connected := true } }

/-- The bucket object `h` signals `error` with `err`: its `error` listeners run. -/
def errorEvent (s : Cluster) (h : Nat) (err : Err) : Cluster :=
  match s.handles.get? h with
  | none => s
  | some b => b.onError.foldl (runErrorListener err) s

/-- The settled state of a future in a state; `none` is pending. -/
def Cluster.outcome (s : Cluster) : Future → Option Settled
  | .resolved v => some (.fulfilled v)
  | .rejected e => some (.rejected e)
  | .cell p => (s.promises.get? p).join

/-! ## Runs -/

/-- One step of a run: a call of the public interface or a notification. -/
inductive Action where
  | get (name : String)
  | openSync (name : String)
  | openAsync (name : String)
  | connect (h : Nat)
  | error (h : Nat) (err : Err)
  | subscribe (observer : Nat)
deriving DecidableEq, Repr

/-- The state after one step. -/
def step (s : Cluster) : Action → Cluster
  | .get _ => s
  | .openSync name => (openBucketSync s name).1
  | .openAsync name => (openBucket s name).1
  | .connect h => connectEvent s h
  | .error h err => errorEvent s h err
  | .subscribe o => subscribe s o

/-- The state after a run. -/
def run (s : Cluster) (acts : List Action) : Cluster :=
  acts.foldl step s

/-- The number of calls of `cluster.openBucket` made for `name`. -/
def Cluster.connectCount (s : Cluster) (name : String) : Nat :=
  s.connectCalls.count name

/-- The state after `n` calls of `openBucket(name)` in a row, with the results in call order. -/
def openTimes (s : Cluster) (name : String) : Nat → Cluster × List (Outcome Future)
  | 0 => (s, [])
  | n + 1 =>
    let r := openBucket s name
    let rest := openTimes r.1 name n
    (rest.1, r.2 :: rest.2)

/-! ## Integrity check -/

/-- The number written by a list of decimal digits, read after the digits of `acc`. -/
def digitsValue : List Char → Nat → Nat
  | [], acc => acc
  | c :: rest, acc => digitsValue rest (acc * 10 + (c.toNat - 48))

/-- The canonical decimal numerals: `0`, or digits that do not start with `0`. -/
def isCanonicalNumeral : List Char → Bool
  | [] => false
  | [c] => c.isDigit
  | c :: rest => c.isDigit && c != '0' && rest.all Char.isDigit

/-- The array index that a property name stands for, if any: a canonical numeral below
`2^32 - 1`. -/
def arrayIndex (name : String) : Option Nat :=
  if isCanonicalNumeral name.data && digitsValue name.data 0 < 4294967295 then
    some (digitsValue name.data 0)
  else none

/-- The numeric value by which array index names are ordered. -/
def indexValue (name : String) : Nat :=
  (arrayIndex name).getD 0

/-- Insertion of an array index name into a list in ascending numeric order. -/
def insertKey (k : String) : List String → List String
  | [] => [k]
  | x :: rest => if indexValue k ≤ indexValue x then k :: x :: rest else x :: insertKey k rest

/-- Array index names in ascending numeric order. -/
def sortKeys : List String → List String
  | [] => []
  | k :: rest => insertKey k (sortKeys rest)

/-- The call `Object.keys(buckets)`: the own names that are array indices come first, in
ascending numeric order, then the other own names in insertion order. -/
def objectKeys (own : List (String × Nat)) : List String :=
  sortKeys ((own.map Prod.fst).filter (fun n => (arrayIndex n).isSome)) ++
    (own.map Prod.fst).filter (fun n => (arrayIndex n).isNone)

/-- Progress of one item mapped by `inspectIntegrity`. -/
inductive Stage where
  /-- The promise of `ensureConnected` is pending on the `once` listeners of the bucket. -/
  | awaitingConnect
  /-- The call `bucket.upsertAsync(key, process.pid, {expiry: 10})` is in flight. -/
  | writing
  /-- The write was fulfilled. -/
  | written
  /-- The promise of `ensureConnected` was rejected with `e`; no write was issued. -/
  | connectFailed (e : Err)
  /-- The write was rejected with `e`. -/
  | writeFailed (e : Err)
deriving DecidableEq, Repr

/-- Whether `upsertAsync` has been called for the item. -/
def Stage.issued : Stage → Bool
  | .writing => true
  | .written => true
  | .writeFailed _ => true
  | _ => false

/-- Whether the mapped promise of the item was rejected. -/
def Stage.failed : Stage → Bool
  | .connectFailed _ => true
  | .writeFailed _ => true
  | _ => false

/-- One key of `Object.keys(buckets)` with the value `buckets[name]` read by the mapped
call. -/
structure ProbeItem where
  name : String
  bucket : Value
  stage : Stage
deriving DecidableEq, Repr

/-- Settled state of the promise returned by `inspectIntegrity`. -/
inductive ProbeResult where
  /-- Fulfilled with `true` (`.return(true)`). -/
  | fulfilledTrue
  /-- Rejected with the reason of the first mapped promise that was rejected. -/
  | rejected (e : Err)
deriving DecidableEq, Repr

/-- One call of `inspectIntegrity` in progress. -/
structure Probe where
  items : List ProbeItem
  /-- The bucket objects on which `upsertAsync` was called, in call order. -/
  writes : List Nat
  /-- The promise returned to the caller; `none` is pending. -/
  result : Option ProbeResult
deriving DecidableEq, Repr

/-- The promise of `Promise.map` is fulfilled once every mapped promise is fulfilled. -/
def Probe.checkDone (p : Probe) : Probe :=
  match p.result with
  | some _ => p
  | none =>
    if p.items.all (fun i => i.stage == .written) then
      { p with result := some .fulfilledTrue }
    else p

/-- The promise of `Promise.map` is rejected by the first rejection of a mapped promise;
later rejections are ignored. -/
def Probe.rejectWith (p : Probe) (e : Err) : Probe :=
  match p.result with
  | some _ => p
  | none => { p with result := some (.rejected e) }

/-- The field `bucket.connected` of the bucket object `h`. -/
def Cluster.isConnected (s : Cluster) (h : Nat) : Bool :=
  match s.handles.get? h with
  | some b => b.connected
  | none => false

/-- State of the promise returned by `ensureConnected` when the call returns. -/
inductive Ensured where
  /-- Resolved with the bucket at once (`bucket.connected`). -/
  | resolved
  /-- Pending on the `once('connect')` and `once('error')` listeners just registered. -/
  | pending
  /-- Rejected: the executor threw. -/
  | rejected (e : Err)
deriving DecidableEq, Repr

/-- The method `ensureConnected(bucket)`. On a value that is not a bucket object the
executor throws a `TypeError` (no `connected` on `undefined`, no `once` on an inherited
member), which rejects the promise. -/
def ensureConnected (s : Cluster) : Value → Ensured
  | .bucket h => if s.isConnected h then .resolved else .pending
  | _ => .rejected .typeError

/-- The function mapped by `inspectIntegrity` over the names, run in the state `later`:
`buckets[name]` is read, `ensureConnected` is called, and when its promise is resolved at
once the `then` callback issues the write in the same turn. -/
def mapper (later : Cluster) (name : String) : ProbeItem :=
  { name := name, bucket := later.bucketAt name,
    stage :=
      match ensureConnected later (later.bucketAt name) with
      | .resolved => .writing
      | .pending => .awaitingConnect
      | .rejected e => .connectFailed e }

/-- The bucket object on which the write of an item in stage `writing` is issued. -/
def ProbeItem.target (i : ProbeItem) : Option Nat :=
  match i.bucket with
  | .bucket h => if i.stage == .writing then some h else none
  | _ => none

/-- The reason of the first mapped promise that is rejected when the mapped calls run. -/
def firstRejection : List ProbeItem → Option Err
  | [] => none
  | i :: rest =>
    match i.stage with
    | .connectFailed e => some e
    | _ => firstRejection rest

/-- The method `inspectIntegrity()`, called in the state `s`. The names are
`Object.keys(buckets)` at the call; `Promise.map` runs the mapped calls in a later turn, in
the state `later` that the cluster has reached by then. The result is the probe right after
the mapped calls. -/
def inspectIntegrity (s later : Cluster) : Probe :=
  let items : List ProbeItem := (objectKeys s.buckets).map (mapper later)
  let p : Probe := { items := items, writes := items.filterMap ProbeItem.target, result := none }
  Probe.checkDone
    (match firstRejection items with
     | some e => p.rejectWith e
     | none => p)

/-- The items of the bucket object `h` that are in stage `src` move to stage `dst`. -/
def advance (items : List ProbeItem) (h : Nat) (src dst : Stage) : List ProbeItem :=
  items.map (fun i =>
    if i.bucket == .bucket h && i.stage == src then { i with stage := dst } else i)

/-- A waiting bucket signals `connect`: the `once('connect')` listener of `ensureConnected`
resolves and the write is issued. -/
def Probe.onConnect (p : Probe) (h : Nat) : Probe :=
  { p with
    items := advance p.items h .awaitingConnect .writing,
    writes := p.writes ++
      ((p.items.filter (fun i => i.bucket == .bucket h && i.stage == .awaitingConnect)).map
        (fun _ => h)) }

/-- A waiting bucket signals `error`: the `once('error')` listener of `ensureConnected`
rejects. -/
def Probe.onError (p : Probe) (h : Nat) (e : Err) : Probe :=
  if p.items.any (fun i => i.bucket == .bucket h && i.stage == .awaitingConnect) then
    Probe.rejectWith { p with items := advance p.items h .awaitingConnect (.connectFailed e) } e
  else p

/-- The write in flight on the bucket object `h` completes: `none` is success, `some e` is a
rejection with `e`. -/
def Probe.writeCompleted (p : Probe) (h : Nat) (r : Option Err) : Probe :=
  if p.items.any (fun i => i.bucket == .bucket h && i.stage == .writing) then
    match r with
    | none => Probe.checkDone { p with items := advance p.items h .writing .written }
    | some e =>
      Probe.rejectWith { p with items := advance p.items h .writing (.writeFailed e) } e
  else p

/-- What the environment does to a probe after the mapped calls. -/
inductive ProbeEvent where
  /-- The bucket object `h` signals `connect`. -/
  | connect (h : Nat)
  /-- The bucket object `h` signals `error`. -/
  | error (h : Nat) (e : Err)
  /-- The write on the bucket object `h` is fulfilled. -/
  | written (h : Nat)
  /-- The write on the bucket object `h` is rejected. -/
  | writeFailed (h : Nat) (e : Err)
deriving DecidableEq, Repr

/-- The probe after one event. -/
def Probe.step (p : Probe) : ProbeEvent → Probe
  | .connect h => p.onConnect h
  | .error h e => p.onError h e
  | .written h => p.writeCompleted h none
  | .writeFailed h e => p.writeCompleted h (some e)

/-- The probe after the events `evs`. -/
def Probe.run (p : Probe) (evs : List ProbeEvent) : Probe :=
  evs.foldl Probe.step p

/-- The returned promise agrees with the items: while it is pending no mapped promise is
rejected and some write is not fulfilled; it is fulfilled when every write is fulfilled;
it is rejected with the reason of a rejected mapped promise. -/
def Probe.settledAsItems (p : Probe) : Prop :=
  match p.result with
  | none => (∀ i ∈ p.items, i.stage.failed = false) ∧ ∃ i ∈ p.items, i.stage ≠ .written
  | some .fulfilledTrue => ∀ i ∈ p.items, i.stage = .written
  | some (.rejected e) => ∃ i ∈ p.items, i.stage = .connectFailed e ∨ i.stage = .writeFailed e

/-- The writes agree with the items: a write was issued on a bucket object exactly when an
item of that bucket object has its write issued, and there is one write per such item. -/
def Probe.writesAsItems (p : Probe) : Prop :=
  (∀ h, h ∈ p.writes ↔ ∃ i ∈ p.items, i.bucket = .bucket h ∧ i.stage.issued = true) ∧
  p.writes.length = (p.items.filter (fun i => i.stage.issued)).length

/-- The connect calls made for a name are counted by its slot: one when the slot holds a
bucket object, none when it is empty. -/
def Cluster.countedBySlots (s : Cluster) : Prop :=
  ∀ name, s.connectCalls.count name = if (s.buckets.lookup name).isSome then 1 else 0

/-! ## Concrete configurations used in the examples -/

/-- A bucket record. -/
def sampleConfig : BucketConfig := { bucket := "default", password := none }

/-- Options with the single name `a`. -/
def optionsA : Option Options :=
  some { host := some "localhost", buckets := .plain [("a", sampleConfig)] }

/-- Options with the single name `b`. -/
def optionsB : Option Options :=
  some { host := some "localhost", buckets := .plain [("b", sampleConfig)] }

/-- Options with the names `a`, `b` and `c`. -/
def optionsABC : Option Options :=
  some { host := some "localhost",
         buckets := .plain [("a", sampleConfig), ("b", sampleConfig), ("c", sampleConfig)] }

/-- Options whose single name is `constructor`. -/
def optionsConstructor : Option Options :=
  some { host := some "localhost", buckets := .plain [("constructor", sampleConfig)] }

/-- The cluster object right after construction from the given entries. -/
def freshCluster (host : Option String) (entries : List (String × BucketConfig)) : Cluster :=
  { host := host, options := entries, buckets := [], handles := [], connectCalls := [],
    promises := [], observers := [], delivered := [], emittedErrors := [] }

/-- The cluster object built from `optionsA`. -/
def clusterA : Cluster := freshCluster (some "localhost") [("a", sampleConfig)]

/-- The cluster object built from `optionsB`. -/
def clusterB : Cluster := freshCluster (some "localhost") [("b", sampleConfig)]

/-- The cluster object built from `optionsABC`. -/
def clusterABC : Cluster :=
  freshCluster (some "localhost") [("a", sampleConfig), ("b", sampleConfig), ("c", sampleConfig)]

/-- The cluster object built from `optionsConstructor`. -/
def clusterConstructor : Cluster :=
  freshCluster (some "localhost") [("constructor", sampleConfig)]

/-- The state reached from `optionsABC` when the three names are open and connected. -/
def clusterABCOpen : Cluster :=
  run clusterABC [.openSync "a", .openSync "b", .openSync "c", .connect 0, .connect 1,
    .connect 2]

/-- The state reached from `optionsABC` when the attempt for `a` has failed and `b` is open
and connected. -/
def clusterAFailed : Cluster :=
  run clusterABC [.openAsync "a", .openSync "b", .error 0 (.connectError 1), .connect 1]

/-- Options with the names `b` and `1`, in this order. -/
def optionsB1 : Option Options :=
  some { host := some "localhost", buckets := .plain [("b", sampleConfig), ("1", sampleConfig)] }

/-- The cluster object built from `optionsB1`. -/
def clusterB1 : Cluster := freshCluster (some "localhost") [("b", sampleConfig), ("1", sampleConfig)]

/-! ## Basic facts about the slot object -/

theorem lookup_setOwn_self (l : List (String × Nat)) (name : String) (h : Nat) :
    (setOwn l name h).lookup name = some h := by
  induction l with
  | nil => simp [setOwn, List.lookup]
  | cons kv rest ih =>
    obtain ⟨k, v⟩ := kv
    by_cases hk : k = name
    · subst hk
      simp [setOwn, List.lookup]
    · have hk' : (name == k) = false := by
        simpa using fun h' => hk h'.symm
      simp [setOwn, hk, List.lookup, hk', ih]

theorem lookup_setOwn_other (l : List (String × Nat)) (name other : String) (h : Nat)
    (hne : other ≠ name) : (setOwn l name h).lookup other = l.lookup other := by
  induction l with
  | nil =>
    have : (other == name) = false := by simpa using hne
    simp [setOwn, List.lookup, this]
  | cons kv rest ih =>
    obtain ⟨k, v⟩ := kv
    by_cases hk : k = name
    · subst hk
      have : (other == k) = false := by simpa using hne
      simp [setOwn, List.lookup, this]
    · by_cases ho : other = k
      · subst ho
        simp [setOwn, hk, List.lookup]
      · have : (other == k) = false := by simpa using ho
        simp [setOwn, hk, List.lookup, this, ih]

theorem bucketAt_of_lookup (s : Cluster) (name : String) (h : Nat)
    (hslot : s.buckets.lookup name = some h) : s.bucketAt name = .bucket h := by
  simp [Cluster.bucketAt, hslot]

theorem lookup_none_of_undefined (s : Cluster) (name : String)
    (hidle : s.bucketAt name = .undefined) :
    s.buckets.lookup name = none ∧ objectPrototypeKeys.contains name = false := by
  unfold Cluster.bucketAt at hidle
  cases hl : s.buckets.lookup name with
  | some h => simp [hl] at hidle
  | none =>
    rw [hl] at hidle
    by_cases hc : objectPrototypeKeys.contains name = true
    · simp only [hc, if_true] at hidle
      cases hidle
    · exact ⟨rfl, Bool.eq_false_iff.mpr hc⟩

/-! ## Notifications leave the slot object alone -/

theorem foldl_connect_frame (ls : List ConnectListener) (s : Cluster) :
    (ls.foldl runConnectListener s).buckets = s.buckets ∧
    (ls.foldl runConnectListener s).options = s.options ∧
    (ls.foldl runConnectListener s).connectCalls = s.connectCalls := by
  induction ls generalizing s with
  | nil => simp
  | cons l rest ih =>
    rw [List.foldl_cons]
    obtain ⟨h1, h2, h3⟩ := ih (runConnectListener s l)
    rw [h1, h2, h3]
    cases l <;> simp [runConnectListener]

theorem foldl_error_frame (err : Err) (ls : List ErrorListener) (s : Cluster) :
    (ls.foldl (runErrorListener err) s).buckets = s.buckets ∧
    (ls.foldl (runErrorListener err) s).options = s.options ∧
    (ls.foldl (runErrorListener err) s).connectCalls = s.connectCalls := by
  induction ls generalizing s with
  | nil => simp
  | cons l rest ih =>
    rw [List.foldl_cons]
    obtain ⟨h1, h2, h3⟩ := ih (runErrorListener err s l)
    rw [h1, h2, h3]
    cases l <;> simp [runErrorListener]

theorem connectEvent_frame (s : Cluster) (h : Nat) :
    (connectEvent s h).buckets = s.buckets ∧ (connectEvent s h).options = s.options ∧
    (connectEvent s h).connectCalls = s.connectCalls := by
  unfold connectEvent
  cases hb : s.handles.get? h with
  | none => simp
  | some b =>
    simp only []
    obtain ⟨h1, h2, h3⟩ :=
      foldl_connect_frame b.onConnect
        { s with handles := s.handles.set h { b with connected := true } }
    exact ⟨h1, h2, h3⟩

theorem errorEvent_frame (s : Cluster) (h : Nat) (err : Err) :
    (errorEvent s h err).buckets = s.buckets ∧ (errorEvent s h err).options = s.options ∧
    (errorEvent s h err).connectCalls = s.connectCalls := by
  unfold errorEvent
  cases hb : s.handles.get? h with
  | none => simp
  | some b => exact foldl_error_frame err b.onError s

/-! ## The first acquisition of an empty slot -/

theorem get?_concat_length {α : Type} (l : List α) (a : α) :
    (l ++ [a]).get? l.length = some a := by
  simp

theorem set_concat_length {α : Type} (l : List α) (a b : α) :
    (l ++ [a]).set l.length b = l ++ [b] := by
  induction l with
  | nil => rfl
  | cons x rest ih => simp [List.set, ih]

theorem settle_pending (ps : List (Option Settled)) (r : Settled) :
    settle (ps ++ [none]) ps.length r = ps ++ [some r] := by
  unfold settle
  rw [get?_concat_length]
  exact set_concat_length ps none (some r)

theorem hasOwnPropertyCall_configured (options : List (String × BucketConfig)) (name : String)
    (o : BucketConfig) (hcfg : options.lookup name = some o)
    (hown : options.lookup "hasOwnProperty" = none) :
    hasOwnPropertyCall options name = .returned true := by
  simp [hasOwnPropertyCall, hown, hcfg]

theorem openBucket_idle (s : Cluster) (name : String) (o : BucketConfig)
    (hidle : s.bucketAt name = .undefined) (hcfg : s.options.lookup name = some o)
    (hown : s.options.lookup "hasOwnProperty" = none) :
    openBucket s name =
      ({ s with buckets := setOwn s.buckets name s.handles.length,
                handles := s.handles ++
                  [asyncBucket name s.promises.length (some o.bucket) o.password],
                connectCalls := s.connectCalls ++ [name],
                promises := s.promises ++ [none] },
       .returned (.cell s.promises.length)) := by
  unfold openBucket
  rw [hidle, hasOwnPropertyCall_configured s.options name o hcfg hown]
  simp [Value.truthy, dollarOpenBucket, Cluster.configAt, hcfg]

theorem openBucketSync_idle (s : Cluster) (name : String) (o : BucketConfig)
    (hidle : s.bucketAt name = .undefined) (hcfg : s.options.lookup name = some o)
    (hown : s.options.lookup "hasOwnProperty" = none) :
    openBucketSync s name =
      ({ s with buckets := setOwn s.buckets name s.handles.length,
                handles := s.handles ++ [syncBucket name (some o.bucket) o.password],
                connectCalls := s.connectCalls ++ [name] },
       .returned (.bucket s.handles.length)) := by
  unfold openBucketSync
  rw [hidle, hasOwnPropertyCall_configured s.options name o hcfg hown]
  simp [Value.truthy, dollarOpenBucketSync, Cluster.configAt, hcfg, Cluster.bucketAt,
    lookup_setOwn_self]

theorem openBucket_hit (s : Cluster) (name : String) (h : Nat)
    (hslot : s.buckets.lookup name = some h) :
    openBucket s name = (s, .returned (.resolved (.bucket h))) := by
  simp [openBucket, bucketAt_of_lookup s name h hslot, Value.truthy]

theorem openBucketSync_hit (s : Cluster) (name : String) (h : Nat)
    (hslot : s.buckets.lookup name = some h) :
    openBucketSync s name = (s, .returned (.bucket h)) := by
  simp [openBucketSync, bucketAt_of_lookup s name h hslot, Value.truthy]

theorem get_hit (s : Cluster) (name : String) (h : Nat)
    (hslot : s.buckets.lookup name = some h) :
    get s name = .returned (.bucket h) := by
  simp [get, bucketAt_of_lookup s name h hslot, Value.truthy]

/-- After the first `openBucket(name)`, the `connect` notification of the new bucket object
fulfils the promise with that object. -/
theorem connect_after_open (s : Cluster) (name : String) (o : BucketConfig)
    (hidle : s.bucketAt name = .undefined) (hcfg : s.options.lookup name = some o)
    (hown : s.options.lookup "hasOwnProperty" = none) :
    (connectEvent (openBucket s name).1 s.handles.length).promises =
      s.promises ++ [some (.fulfilled (.bucket s.handles.length))] ∧
    (connectEvent (openBucket s name).1 s.handles.length).delivered = s.delivered := by
  rw [openBucket_idle s name o hidle hcfg hown]
  simp only [connectEvent, get?_concat_length, set_concat_length, asyncBucket,
    List.foldl_cons, List.foldl_nil, runConnectListener, Cluster.bucketAt, lookup_setOwn_self,
    settle_pending]
  simp

/-- After the first `openBucket(name)`, the `error` notification of the new bucket object
rejects the promise with the error. -/
theorem error_after_open (s : Cluster) (name : String) (o : BucketConfig) (err : Err)
    (hidle : s.bucketAt name = .undefined) (hcfg : s.options.lookup name = some o)
    (hown : s.options.lookup "hasOwnProperty" = none) :
    (errorEvent (openBucket s name).1 s.handles.length err).promises =
      s.promises ++ [some (.rejected err)] := by
  rw [openBucket_idle s name o hidle hcfg hown]
  simp only [errorEvent, get?_concat_length, asyncBucket, List.foldl_cons,
    List.foldl_nil, runErrorListener, settle_pending]

/-! ## Effect of the acquisition calls on the slot object and on the connect calls -/

theorem lookup_none_of_not_truthy (s : Cluster) (name : String)
    (hf : (s.bucketAt name).truthy = false) : s.buckets.lookup name = none := by
  unfold Cluster.bucketAt at hf
  cases hl : s.buckets.lookup name with
  | none => rfl
  | some h => simp [hl, Value.truthy] at hf

theorem configAt_of_hasOwnProperty (s : Cluster) (name : String)
    (hc : hasOwnPropertyCall s.options name = .returned true) :
    ∃ o, s.options.lookup name = some o ∧ s.configAt name = .entry o := by
  unfold hasOwnPropertyCall at hc
  cases hown : s.options.lookup "hasOwnProperty" with
  | some x => simp [hown] at hc
  | none =>
    cases hl : s.options.lookup name with
    | none => simp [hown, hl] at hc
    | some o => exact ⟨o, rfl, by simp [Cluster.configAt, hl]⟩

theorem openBucketSync_effect (s : Cluster) (name : String) :
    (openBucketSync s name).1 = s ∨
    (s.buckets.lookup name = none ∧
     (openBucketSync s name).1.buckets = setOwn s.buckets name s.handles.length ∧
     (openBucketSync s name).1.connectCalls = s.connectCalls ++ [name] ∧
     (s.options.lookup name).isSome = true) := by
  unfold openBucketSync
  by_cases ht : (s.bucketAt name).truthy = true
  · left
    simp [ht]
  · have hf : (s.bucketAt name).truthy = false := Bool.eq_false_iff.mpr ht
    simp only [hf, Bool.false_eq_true, if_false]
    cases hc : hasOwnPropertyCall s.options name with
    | thrown e => left; rfl
    | returned b =>
      cases b with
      | false => left; rfl
      | true =>
        obtain ⟨o, hl, hcv⟩ := configAt_of_hasOwnProperty s name hc
        simp only [dollarOpenBucketSync, hcv]
        right
        refine ⟨lookup_none_of_not_truthy s name hf, ?_, ?_, ?_⟩
        · simp
        · simp
        · rw [hl]; rfl

theorem openBucket_effect (s : Cluster) (name : String) :
    (openBucket s name).1 = s ∨
    (s.buckets.lookup name = none ∧
     (openBucket s name).1.buckets = setOwn s.buckets name s.handles.length ∧
     (openBucket s name).1.connectCalls = s.connectCalls ++ [name] ∧
     (s.options.lookup name).isSome = true) := by
  unfold openBucket
  by_cases ht : (s.bucketAt name).truthy = true
  · left
    simp [ht]
  · have hf : (s.bucketAt name).truthy = false := Bool.eq_false_iff.mpr ht
    simp only [hf, Bool.false_eq_true, if_false]
    cases hc : hasOwnPropertyCall s.options name with
    | thrown e => left; rfl
    | returned b =>
      cases b with
      | false => left; rfl
      | true =>
        obtain ⟨o, hl, hcv⟩ := configAt_of_hasOwnProperty s name hc
        simp only [dollarOpenBucket, hcv]
        right
        refine ⟨lookup_none_of_not_truthy s name hf, ?_, ?_, ?_⟩
        · simp
        · simp
        · rw [hl]; rfl

/-- Every step either leaves the slot object and the connect calls as they are, or fills
the empty slot of one name and makes one connect call for that name. -/
theorem step_effect (s : Cluster) (a : Action) :
    ((step s a).buckets = s.buckets ∧ (step s a).connectCalls = s.connectCalls) ∨
    (∃ name, s.buckets.lookup name = none ∧
      (step s a).buckets = setOwn s.buckets name s.handles.length ∧
      (step s a).connectCalls = s.connectCalls ++ [name] ∧
      (s.options.lookup name).isSome = true) := by
  cases a with
  | get name => left; exact ⟨rfl, rfl⟩
  | openSync name =>
    rcases openBucketSync_effect s name with h | ⟨h1, h2, h3, h4⟩
    · left; simp [step, h]
    · right; exact ⟨name, h1, h2, h3, h4⟩
  | openAsync name =>
    rcases openBucket_effect s name with h | ⟨h1, h2, h3, h4⟩
    · left; simp [step, h]
    · right; exact ⟨name, h1, h2, h3, h4⟩
  | connect h =>
    left
    exact ⟨(connectEvent_frame s h).1, (connectEvent_frame s h).2.2⟩
  | error h err =>
    left
    exact ⟨(errorEvent_frame s h err).1, (errorEvent_frame s h err).2.2⟩
  | subscribe o => left; exact ⟨rfl, rfl⟩

/-- A slot that holds a bucket object keeps it in every later state. -/
theorem run_keeps_slot (acts : List Action) (s : Cluster) (name : String) (h : Nat)
    (hslot : s.buckets.lookup name = some h) :
    (run s acts).buckets.lookup name = some h := by
  induction acts generalizing s with
  | nil => exact hslot
  | cons a rest ih =>
    show (run (step s a) rest).buckets.lookup name = some h
    apply ih
    rcases step_effect s a with ⟨hb, _⟩ | ⟨other, hnone, hb, _⟩
    · rw [hb]; exact hslot
    · rw [hb]
      have hne : name ≠ other := by
        intro heq
        rw [heq, hnone] at hslot
        cases hslot
      rw [lookup_setOwn_other s.buckets other name s.handles.length hne]
      exact hslot

theorem step_countedBySlots (s : Cluster) (a : Action) (hinv : s.countedBySlots) :
    (step s a).countedBySlots := by
  rcases step_effect s a with ⟨hb, hc⟩ | ⟨other, hnone, hb, hc, _⟩
  · intro name
    rw [hb, hc]
    exact hinv name
  · intro name
    rw [hb, hc, List.count_append]
    by_cases hn : name = other
    · subst hn
      have h0 := hinv name
      rw [hnone] at h0
      simp [lookup_setOwn_self, h0]
    · rw [lookup_setOwn_other s.buckets other name s.handles.length hn, hinv name]
      have : List.count name [other] = 0 := by
        simp [List.count_cons, Ne.symm hn]
      omega

theorem run_countedBySlots (acts : List Action) (s : Cluster) (hinv : s.countedBySlots) :
    (run s acts).countedBySlots := by
  induction acts generalizing s with
  | nil => exact hinv
  | cons a rest ih => exact ih (step s a) (step_countedBySlots s a hinv)

theorem build_eq_fresh (opt : Option Options) (s : Cluster) (hb : build opt = .returned s) :
    ∃ host entries, opt = some { host := host, buckets := .plain entries } ∧
      entries ≠ [] ∧ s = freshCluster host entries := by
  unfold build new at hb
  cases opt with
  | none => simp [isPlainObject] at hb
  | some o =>
    obtain ⟨host, bs⟩ := o
    cases bs with
    | missing => simp [isPlainObject] at hb
    | nonObject => simp [isPlainObject] at hb
    | nonPlain => simp [isPlainObject] at hb
    | plain entries =>
      cases entries with
      | nil => simp [isPlainObject, isEmpty] at hb
      | cons e rest =>
        simp only [Option.getD, isPlainObject, isEmpty, List.isEmpty, Bool.not_true,
          Bool.or_self, Bool.false_eq_true, if_false] at hb
        refine ⟨host, e :: rest, rfl, by simp, ?_⟩
        cases hb
        rfl

/-- On a cluster object built from any options, whatever calls and notifications follow,
`cluster.openBucket` is called at most once for every name. -/
theorem connect_at_most_once (opt : Option Options) (s : Cluster) (hb : build opt = .returned s)
    (acts : List Action) (name : String) : (run s acts).connectCount name ≤ 1 := by
  obtain ⟨host, entries, _, _, hs⟩ := build_eq_fresh opt s hb
  have h0 : s.countedBySlots := by
    intro n
    subst hs
    simp [freshCluster]
  have h := run_countedBySlots acts s h0 name
  unfold Cluster.connectCount
  rw [h]
  split <;> omega

/-! ## Repeated acquisition -/

theorem openTimes_hit (s : Cluster) (name : String) (v : Value)
    (hv : s.bucketAt name = v) (ht : v.truthy = true) (n : Nat) :
    openTimes s name n = (s, List.replicate n (.returned (.resolved v))) := by
  induction n with
  | zero => rfl
  | succ k ih =>
    have h1 : openBucket s name = (s, .returned (.resolved v)) := by
      simp [openBucket, hv, ht]
    simp only [openTimes, h1, ih, List.replicate_succ]

theorem outcome_cell_last (s : Cluster) (ps : List (Option Settled)) (r : Option Settled)
    (hp : s.promises = ps ++ [r]) : s.outcome (.cell ps.length) = r := by
  simp [Cluster.outcome, hp]

/-! ## C1: one connect call per name -/

/-- Claim C1, evaluated where it fails: in the cluster built from a mapping whose configured
name is `constructor`, the slot object has no entry, yet any number of `openBucket` calls
for that name make no call of `cluster.openBucket` at all (the claim says exactly one):
each returns a promise already resolved with the inherited member of `Object.prototype`. -/
theorem C1_configured_inherited_name_never_connects (n : Nat) :
    build optionsConstructor = .returned clusterConstructor ∧
    (clusterConstructor.options.lookup "constructor").isSome = true ∧
    clusterConstructor.buckets = [] ∧
    (openTimes clusterConstructor "constructor" n).1.connectCount "constructor" = 0 ∧
    (openTimes clusterConstructor "constructor" n).2 =
      List.replicate n (.returned (.resolved (.inherited "constructor"))) := by
  have hv : clusterConstructor.bucketAt "constructor" = .inherited "constructor" := by decide
  rw [openTimes_hit clusterConstructor "constructor" _ hv rfl n]
  exact ⟨by decide, by decide, by decide, rfl, rfl⟩

/-! ## C2: futures of calls made while the attempt is in flight -/

/-- Claim C2, refuted: two `openBucket("a")` calls in a row on the cluster built from
`optionsA`. The second promise is already fulfilled while the bucket object is not
connected and the first promise is pending; when the attempt then fails, the first promise
is rejected and the second stays fulfilled. -/
theorem C2_counterexample :
    build optionsA = .returned clusterA ∧
    (openTimes clusterA "a" 2).2 =
      [.returned (.cell 0), .returned (.resolved (.bucket 0))] ∧
    (openTimes clusterA "a" 2).1.isConnected 0 = false ∧
    (openTimes clusterA "a" 2).1.outcome (.cell 0) = none ∧
    (openTimes clusterA "a" 2).1.outcome (.resolved (.bucket 0)) =
      some (.fulfilled (.bucket 0)) ∧
    (errorEvent (openTimes clusterA "a" 2).1 0 (.connectError 1)).outcome (.cell 0) =
      some (.rejected (.connectError 1)) ∧
    (errorEvent (openTimes clusterA "a" 2).1 0 (.connectError 1)).outcome
      (.resolved (.bucket 0)) = some (.fulfilled (.bucket 0)) := by
  decide

/-- Claim C2, amended: when the slot of a configured name is empty (and the mapping has no
entry called `hasOwnProperty`), of `n + 1` calls of `openBucket(name)` in a row only the
first makes a connect call and returns a pending promise, which the `connect` notification
fulfils with the bucket object and the `error` notification rejects with the error; each of
the `n` later calls returns a promise that is already fulfilled with that same bucket
object before the attempt completes, and stays so when the attempt fails. -/
theorem C2_first_pending_later_resolved (s : Cluster) (name : String) (o : BucketConfig)
    (n : Nat) (err : Err)
    (hidle : s.bucketAt name = .undefined) (hcfg : s.options.lookup name = some o)
    (hown : s.options.lookup "hasOwnProperty" = none) :
    (openTimes s name (n + 1)).1 = (openBucket s name).1 ∧
    (openTimes s name (n + 1)).2 =
      .returned (.cell s.promises.length) ::
        List.replicate n (.returned (.resolved (.bucket s.handles.length))) ∧
    (openBucket s name).1.connectCount name = s.connectCount name + 1 ∧
    (openBucket s name).1.isConnected s.handles.length = false ∧
    (openBucket s name).1.outcome (.cell s.promises.length) = none ∧
    (openBucket s name).1.outcome (.resolved (.bucket s.handles.length)) =
      some (.fulfilled (.bucket s.handles.length)) ∧
    (connectEvent (openBucket s name).1 s.handles.length).outcome (.cell s.promises.length) =
      some (.fulfilled (.bucket s.handles.length)) ∧
    (errorEvent (openBucket s name).1 s.handles.length err).outcome
      (.cell s.promises.length) = some (.rejected err) ∧
    (errorEvent (openBucket s name).1 s.handles.length err).outcome
      (.resolved (.bucket s.handles.length)) = some (.fulfilled (.bucket s.handles.length)) := by
  have hopen := openBucket_idle s name o hidle hcfg hown
  have hslot : (openBucket s name).1.buckets.lookup name = some s.handles.length := by
    rw [hopen]; exact lookup_setOwn_self _ _ _
  have hrest := openTimes_hit (openBucket s name).1 name (.bucket s.handles.length)
    (bucketAt_of_lookup _ name _ hslot) rfl n
  refine ⟨?_, ?_, ?_, ?_, ?_, rfl, ?_, ?_, rfl⟩
  · simp only [openTimes, hrest]
  · simp only [openTimes, hrest]
    rw [hopen]
  · rw [hopen]
    simp [Cluster.connectCount, List.count_append]
  · rw [hopen]
    simp [Cluster.isConnected, asyncBucket]
  · rw [hopen]
    exact outcome_cell_last _ s.promises none rfl
  · exact outcome_cell_last _ s.promises _ (connect_after_open s name o hidle hcfg hown).1
  · exact outcome_cell_last _ s.promises _ (error_after_open s name o err hidle hcfg hown)

/-- Claim C2, amended, instantiated on the cluster built from `optionsA` with three calls of
`openBucket("a")`. -/
theorem C2_first_pending_later_resolved_witness :
    clusterA.bucketAt "a" = .undefined ∧
    clusterA.options.lookup "a" = some sampleConfig ∧
    clusterA.options.lookup "hasOwnProperty" = none ∧
    (openTimes clusterA "a" 3).2 =
      [.returned (.cell 0), .returned (.resolved (.bucket 0)),
       .returned (.resolved (.bucket 0))] ∧
    (errorEvent (openBucket clusterA "a").1 0 (.connectError 1)).outcome (.cell 0) =
      some (.rejected (.connectError 1)) :=
  have h := C2_first_pending_later_resolved clusterA "a" sampleConfig 2 (.connectError 1)
    (by decide) (by decide) (by decide)
  ⟨by decide, by decide, by decide, h.2.1, h.2.2.2.2.2.2.2.1⟩

/-! ## C3: acquisition after a failed attempt -/

/-- Claim C3, refuted: on the cluster built from `optionsA`, `openBucket("a")` is called and
the attempt fails. The promise is rejected, but the slot still holds the bucket object, and
a second `openBucket("a")` returns a promise already fulfilled with that object; there is
still a single connect call for `a`, not two. -/
theorem C3_counterexample :
    build optionsA = .returned clusterA ∧
    (openBucket clusterA "a").2 = .returned (.cell 0) ∧
    (errorEvent (openBucket clusterA "a").1 0 (.connectError 1)).outcome (.cell 0) =
      some (.rejected (.connectError 1)) ∧
    (errorEvent (openBucket clusterA "a").1 0 (.connectError 1)).bucketAt "a" = .bucket 0 ∧
    (openBucket (errorEvent (openBucket clusterA "a").1 0 (.connectError 1)) "a").2 =
      .returned (.resolved (.bucket 0)) ∧
    (openBucket (errorEvent (openBucket clusterA "a").1 0 (.connectError 1)) "a").1.connectCount
      "a" = 1 := by
  decide

/-- Claim C3, amended: when the slot of a configured name is empty (and the mapping has no
entry called `hasOwnProperty`), `openBucket(name)` makes one connect call; if that attempt
fails, the promise is rejected with the error, the slot keeps the bucket object of the
failed attempt, and the next `openBucket(name)` makes no connect call: it changes nothing
and returns a promise already fulfilled with that same bucket object. -/
theorem C3_open_after_failure_returns_kept_handle (s : Cluster) (name : String)
    (o : BucketConfig) (err : Err)
    (hidle : s.bucketAt name = .undefined) (hcfg : s.options.lookup name = some o)
    (hown : s.options.lookup "hasOwnProperty" = none) :
    (errorEvent (openBucket s name).1 s.handles.length err).outcome
      (.cell s.promises.length) = some (.rejected err) ∧
    (errorEvent (openBucket s name).1 s.handles.length err).bucketAt name =
      .bucket s.handles.length ∧
    openBucket (errorEvent (openBucket s name).1 s.handles.length err) name =
      (errorEvent (openBucket s name).1 s.handles.length err,
       .returned (.resolved (.bucket s.handles.length))) ∧
    (errorEvent (openBucket s name).1 s.handles.length err).connectCount name =
      s.connectCount name + 1 := by
  have hopen := openBucket_idle s name o hidle hcfg hown
  have hframe := errorEvent_frame (openBucket s name).1 s.handles.length err
  have hslot : (errorEvent (openBucket s name).1 s.handles.length err).buckets.lookup name =
      some s.handles.length := by
    rw [hframe.1, hopen]; exact lookup_setOwn_self _ _ _
  refine ⟨?_, bucketAt_of_lookup _ name _ hslot, openBucket_hit _ name _ hslot, ?_⟩
  · exact outcome_cell_last _ s.promises _ (error_after_open s name o err hidle hcfg hown)
  · unfold Cluster.connectCount
    rw [hframe.2.2, hopen]
    simp [List.count_append]

/-- Claim C3, amended, instantiated on the cluster built from `optionsA`. -/
theorem C3_open_after_failure_returns_kept_handle_witness :
    clusterA.bucketAt "a" = .undefined ∧
    clusterA.options.lookup "a" = some sampleConfig ∧
    clusterA.options.lookup "hasOwnProperty" = none ∧
    openBucket (errorEvent (openBucket clusterA "a").1 0 (.connectError 1)) "a" =
      (errorEvent (openBucket clusterA "a").1 0 (.connectError 1),
       .returned (.resolved (.bucket 0))) :=
  ⟨by decide, by decide, by decide,
    (C3_open_after_failure_returns_kept_handle clusterA "a" sampleConfig (.connectError 1)
      (by decide) (by decide) (by decide)).2.2.1⟩

/-! ## C4: `get` while connecting and after a failure -/

/-- Claim C4, refuted: on the cluster built from `optionsA`, right after
`openBucketSync("a")` the bucket object has not signalled `connect`, and `get("a")` returns
it; after `openBucket("a")` and a failed attempt, `get("a")` returns the bucket object of the
failed attempt. In neither state does `get` throw. -/
theorem C4_counterexample :
    build optionsA = .returned clusterA ∧
    (openBucketSync clusterA "a").1.isConnected 0 = false ∧
    get (openBucketSync clusterA "a").1 "a" = .returned (.bucket 0) ∧
    (errorEvent (openBucket clusterA "a").1 0 (.connectError 1)).outcome (.cell 0) =
      some (.rejected (.connectError 1)) ∧
    (errorEvent (openBucket clusterA "a").1 0 (.connectError 1)).isConnected 0 = false ∧
    get (errorEvent (openBucket clusterA "a").1 0 (.connectError 1)) "a" =
      .returned (.bucket 0) := by
  decide

/-- Claim C4, amended: `get(name)` returns the bucket object as soon as `openBucket(name)`
or `openBucketSync(name)` has stored it in the slot, and in every later state, whatever
calls and `connect` or `error` notifications follow: while the attempt is in flight, after
it succeeded and after it failed alike. Before that, on the empty slot, it throws
`The bucket (name) does not exists`. -/
theorem C4_get_returns_stored_handle (s : Cluster) (name : String) (o : BucketConfig)
    (acts : List Action)
    (hidle : s.bucketAt name = .undefined) (hcfg : s.options.lookup name = some o)
    (hown : s.options.lookup "hasOwnProperty" = none) :
    get s name = .thrown (.doesNotExist name) ∧
    get (run (openBucket s name).1 acts) name = .returned (.bucket s.handles.length) ∧
    get (run (openBucketSync s name).1 acts) name = .returned (.bucket s.handles.length) := by
  refine ⟨?_, ?_, ?_⟩
  · simp [get, hidle, Value.truthy]
  · apply get_hit
    apply run_keeps_slot
    rw [openBucket_idle s name o hidle hcfg hown]
    exact lookup_setOwn_self _ _ _
  · apply get_hit
    apply run_keeps_slot
    rw [openBucketSync_idle s name o hidle hcfg hown]
    exact lookup_setOwn_self _ _ _

/-- Claim C4, amended, instantiated on the cluster built from `optionsA`, with a failed
attempt followed by further calls. -/
theorem C4_get_returns_stored_handle_witness :
    clusterA.bucketAt "a" = .undefined ∧
    clusterA.options.lookup "a" = some sampleConfig ∧
    clusterA.options.lookup "hasOwnProperty" = none ∧
    get (run (openBucket clusterA "a").1
      [.error 0 (.connectError 1), .get "a", .openAsync "a"]) "a" = .returned (.bucket 0) :=
  ⟨by decide, by decide, by decide,
    (C4_get_returns_stored_handle clusterA "a" sampleConfig
      [.error 0 (.connectError 1), .get "a", .openAsync "a"]
      (by decide) (by decide) (by decide)).2.1⟩

/-! ## C5: `get` on a cluster object just built -/

/-- Claim C5, refuted: `a` is configured in the cluster built from `optionsA` and is not
configured in the cluster built from `optionsB`; `get("a")` throws the very same error in
both, `The bucket (a) does not exists`, and never `There is no config record for the
bucket`. Besides, `get("constructor")` throws nothing and returns the inherited member. -/
theorem C5_counterexample :
    build optionsA = .returned clusterA ∧ build optionsB = .returned clusterB ∧
    (clusterA.options.lookup "a").isSome = true ∧
    (clusterB.options.lookup "a").isSome = false ∧
    get clusterA "a" = .thrown (.doesNotExist "a") ∧
    get clusterB "a" = .thrown (.doesNotExist "a") ∧
    get clusterB "a" ≠ .thrown (.noConfigRecord "a") ∧
    get clusterA "constructor" = .returned (.inherited "constructor") := by
  decide

/-- Claim C5, amended: on a cluster object just built, for every name that is not the name
of a member of `Object.prototype`, `get(name)` throws the one error
`The bucket (name) does not exists`, whether the name is configured or not; `get` returns
no new state, it only reads. -/
theorem C5_get_on_built_cluster (opt : Option Options) (s : Cluster) (name : String)
    (hb : build opt = .returned s) (hname : objectPrototypeKeys.contains name = false) :
    get s name = .thrown (.doesNotExist name) := by
  obtain ⟨host, entries, _, _, hs⟩ := build_eq_fresh opt s hb
  subst hs
  have hv : (freshCluster host entries).bucketAt name = .undefined := by
    unfold Cluster.bucketAt
    rw [hname]
    rfl
  unfold get
  rw [hv]
  rfl

/-- Claim C5, amended, instantiated at a name that is configured. -/
theorem C5_get_on_built_cluster_witness :
    build optionsA = .returned clusterA ∧ objectPrototypeKeys.contains "a" = false ∧
    get clusterA "a" = .thrown (.doesNotExist "a") :=
  ⟨by decide, by decide, C5_get_on_built_cluster optionsA clusterA "a" (by decide) (by decide)⟩

/-! ## C6: construction -/

/-- Claim C6: `new CouchbaseCluster(options)` and `CouchbaseCluster.build(options)` do the
same; construction throws `Can NOT create empty cluster with no buckets.` exactly when
`options` is absent or `options.buckets` is missing, is not a plain object, or is an empty
plain object, and then no cluster object is returned; in every other case the mapping is a
non-empty plain object and construction returns a cluster object that keeps the mapping and
has an empty slot object, no bucket object and no connect call. -/
theorem C6_construction (opt : Option Options) :
    new opt = build opt ∧
    (build opt = .thrown .emptyCluster ↔
      (opt = none ∨ ∃ o, opt = some o ∧
        (o.buckets = .missing ∨ isPlainObject o.buckets = false ∨ o.buckets = .plain []))) ∧
    (build opt = .thrown .emptyCluster ∨
      ∃ host entries, opt = some { host := host, buckets := .plain entries } ∧
        entries ≠ [] ∧ build opt = .returned (freshCluster host entries) ∧
        (freshCluster host entries).options = entries ∧
        (freshCluster host entries).buckets = [] ∧
        (freshCluster host entries).handles = [] ∧
        (freshCluster host entries).connectCalls = []) := by
  refine ⟨rfl, ?_, ?_⟩
  · cases opt with
    | none => simp [build, new, isPlainObject]
    | some o =>
      obtain ⟨host, bs⟩ := o
      cases bs with
      | missing => simp [build, new, isPlainObject]
      | nonObject => simp [build, new, isPlainObject]
      | nonPlain => simp [build, new, isPlainObject]
      | plain entries =>
        cases entries with
        | nil => simp [build, new, isPlainObject, isEmpty]
        | cons e rest => simp [build, new, isPlainObject, isEmpty]
  · cases opt with
    | none => left; rfl
    | some o =>
      obtain ⟨host, bs⟩ := o
      cases bs with
      | missing => left; rfl
      | nonObject => left; rfl
      | nonPlain => left; rfl
      | plain entries =>
        cases entries with
        | nil => left; rfl
        | cons e rest =>
          right
          exact ⟨host, e :: rest, rfl, by simp, rfl, rfl, rfl, rfl, rfl⟩

/-! ## C7: acquisition of a filled slot -/

/-- Claim C7: when the slot of a name holds the bucket object `h`, `get(name)` and
`openBucketSync(name)` return `h`, `openBucket(name)` returns a promise already resolved
with `h`, and neither call changes the state: no connect call is made and the slot object
stays as it is. -/
theorem C7_cache_hit (s : Cluster) (name : String) (h : Nat)
    (hslot : s.buckets.lookup name = some h) :
    get s name = .returned (.bucket h) ∧
    openBucketSync s name = (s, .returned (.bucket h)) ∧
    openBucket s name = (s, .returned (.resolved (.bucket h))) ∧
    (openBucketSync s name).1.connectCalls = s.connectCalls ∧
    (openBucket s name).1.connectCalls = s.connectCalls ∧
    (openBucketSync s name).1.buckets = s.buckets ∧
    (openBucket s name).1.buckets = s.buckets := by
  have h1 := openBucketSync_hit s name h hslot
  have h2 := openBucket_hit s name h hslot
  refine ⟨get_hit s name h hslot, h1, h2, ?_, ?_, ?_, ?_⟩
  · rw [h1]
  · rw [h2]
  · rw [h1]
  · rw [h2]

/-- Claim C7, instantiated at the state reached from the cluster built from `optionsA` by
`openBucket("a")` and the `connect` notification of the bucket object, where the promise was
fulfilled with the bucket object 0. -/
theorem C7_cache_hit_witness :
    (connectEvent (openBucket clusterA "a").1 0).outcome (.cell 0) =
      some (.fulfilled (.bucket 0)) ∧
    (connectEvent (openBucket clusterA "a").1 0).buckets.lookup "a" = some 0 ∧
    get (connectEvent (openBucket clusterA "a").1 0) "a" = .returned (.bucket 0) ∧
    openBucketSync (connectEvent (openBucket clusterA "a").1 0) "a" =
      (connectEvent (openBucket clusterA "a").1 0, .returned (.bucket 0)) ∧
    openBucket (connectEvent (openBucket clusterA "a").1 0) "a" =
      (connectEvent (openBucket clusterA "a").1 0, .returned (.resolved (.bucket 0))) :=
  have h := C7_cache_hit (connectEvent (openBucket clusterA "a").1 0) "a" 0 (by decide)
  ⟨by decide, by decide, h.1, h.2.1, h.2.2.1⟩

/-! ## C8: the `connect` event of the cluster -/

/-- Claim C8, evaluated where it fails: observer 7 subscribes to the `connect` event of the
cluster built from `optionsA`, then `openBucket("a")` is called and the bucket object
signals `connect`. One connect call was made and the promise is fulfilled with the bucket
object, yet nothing was delivered to the observer (the claim says exactly one event). The
same run with `openBucketSync("a")` delivers the event once. -/
theorem C8_async_open_delivers_no_connect_event :
    build optionsA = .returned clusterA ∧
    (run clusterA [.subscribe 7, .openAsync "a", .connect 0]).observers = [7] ∧
    (run clusterA [.subscribe 7, .openAsync "a", .connect 0]).connectCount "a" = 1 ∧
    (run clusterA [.subscribe 7, .openAsync "a", .connect 0]).outcome (.cell 0) =
      some (.fulfilled (.bucket 0)) ∧
    (run clusterA [.subscribe 7, .openAsync "a", .connect 0]).delivered = [] ∧
    (run clusterA [.subscribe 7, .openSync "a", .connect 0]).delivered = [(7, .bucket 0)] := by
  decide

/-! ## C10: names that are not configured -/

/-- Claim C10, evaluated where it fails: `constructor` and `toString` are not configured in
the cluster built from `optionsA`, yet `openBucketSync` does not throw for them and returns
the inherited member of `Object.prototype`, and `openBucket` returns a promise resolved with
it (the claim says: `There is no config record for the bucket`). For an ordinary name that
is not configured, `zzz`, both calls do fail with that error. -/
theorem C10_inherited_name_is_not_refused :
    build optionsA = .returned clusterA ∧
    (clusterA.options.lookup "constructor").isSome = false ∧
    (clusterA.options.lookup "toString").isSome = false ∧
    openBucketSync clusterA "constructor" =
      (clusterA, .returned (.inherited "constructor")) ∧
    openBucket clusterA "constructor" =
      (clusterA, .returned (.resolved (.inherited "constructor"))) ∧
    openBucketSync clusterA "toString" = (clusterA, .returned (.inherited "toString")) ∧
    openBucket clusterA "toString" =
      (clusterA, .returned (.resolved (.inherited "toString"))) ∧
    openBucketSync clusterA "zzz" = (clusterA, .thrown (.noConfigRecord "zzz")) ∧
    openBucket clusterA "zzz" = (clusterA, .returned (.rejected (.noConfigRecord "zzz"))) := by
  decide

/-! ## Names that are not configured, and the names that hold a slot -/

theorem step_options (s : Cluster) (a : Action) : (step s a).options = s.options := by
  cases a with
  | get name => rfl
  | openSync name =>
    simp only [step, openBucketSync]
    split
    · rfl
    · split
      · rfl
      · rfl
      · simp only [dollarOpenBucketSync]
        split <;> rfl
  | openAsync name =>
    simp only [step, openBucket]
    split
    · rfl
    · split
      · rfl
      · rfl
      · simp only [dollarOpenBucket]
        split <;> rfl
  | connect h => exact (connectEvent_frame s h).2.1
  | error h err => exact (errorEvent_frame s h err).2.1
  | subscribe o => rfl

/-- For a name that is neither configured nor the name of a member of `Object.prototype`,
in a mapping without an entry called `hasOwnProperty`, `openBucketSync` throws and
`openBucket` returns a rejected promise, both with `There is no config record for the
bucket`, unless the slot is filled; the state is left as it is. -/
theorem unknown_ordinary_name_refused (s : Cluster) (name : String)
    (hidle : s.bucketAt name = .undefined) (hcfg : s.options.lookup name = none)
    (hown : s.options.lookup "hasOwnProperty" = none) :
    openBucketSync s name = (s, .thrown (.noConfigRecord name)) ∧
    openBucket s name = (s, .returned (.rejected (.noConfigRecord name))) := by
  simp [openBucketSync, openBucket, hidle, Value.truthy, hasOwnPropertyCall, hown, hcfg]

/-- In every state reached from a cluster object just built, every name that holds a slot is
a configured name. -/
theorem run_slots_configured (opt : Option Options) (s : Cluster)
    (hb : build opt = .returned s) (acts : List Action) (name : String)
    (hslot : ((run s acts).buckets.lookup name).isSome = true) :
    ((run s acts).options.lookup name).isSome = true := by
  obtain ⟨host, entries, _, _, hs⟩ := build_eq_fresh opt s hb
  have hgen : ∀ (acts : List Action) (t : Cluster),
      (∀ n, (t.buckets.lookup n).isSome = true → (t.options.lookup n).isSome = true) →
      ∀ n, ((run t acts).buckets.lookup n).isSome = true →
        ((run t acts).options.lookup n).isSome = true := by
    intro acts
    induction acts with
    | nil => intro t ht; exact ht
    | cons a rest ih =>
      intro t ht
      apply ih (step t a)
      intro n hn
      rw [step_options]
      rcases step_effect t a with ⟨hbk, _⟩ | ⟨other, _, hbk, _, hconf⟩
      · rw [hbk] at hn
        exact ht n hn
      · rw [hbk] at hn
        by_cases hno : n = other
        · rw [hno]; exact hconf
        · rw [lookup_setOwn_other t.buckets other n t.handles.length hno] at hn
          exact ht n hn
  apply hgen acts s _ name hslot
  intro n hn
  subst hs
  simp [freshCluster] at hn

/-! ## C9: the integrity check -/

theorem mem_insertKey (k x : String) (l : List String) :
    x ∈ insertKey k l ↔ x = k ∨ x ∈ l := by
  induction l with
  | nil => simp [insertKey]
  | cons y rest ih =>
    unfold insertKey
    split
    · simp
    · simp only [List.mem_cons, ih]
      constructor
      · rintro (h | h | h)
        · exact Or.inr (Or.inl h)
        · exact Or.inl h
        · exact Or.inr (Or.inr h)
      · rintro (h | h | h)
        · exact Or.inr (Or.inl h)
        · exact Or.inl h
        · exact Or.inr (Or.inr h)

theorem mem_sortKeys (x : String) (l : List String) : x ∈ sortKeys l ↔ x ∈ l := by
  induction l with
  | nil => simp [sortKeys]
  | cons k rest ih => simp [sortKeys, mem_insertKey, ih]

theorem lookup_isSome_iff (own : List (String × Nat)) (name : String) :
    (own.lookup name).isSome = true ↔ name ∈ own.map Prod.fst := by
  induction own with
  | nil => simp [List.lookup]
  | cons kv rest ih =>
    obtain ⟨k, v⟩ := kv
    by_cases hk : name = k
    · subst hk
      simp [List.lookup]
    · have hb : (name == k) = false := by simpa using hk
      simp [List.lookup, hb, ih, hk]

/-- The names listed by `Object.keys(buckets)` are exactly the names that hold a slot. -/
theorem mem_objectKeys (own : List (String × Nat)) (name : String) :
    name ∈ objectKeys own ↔ (own.lookup name).isSome = true := by
  rw [lookup_isSome_iff]
  unfold objectKeys
  rw [List.mem_append, mem_sortKeys, List.mem_filter, List.mem_filter]
  constructor
  · rintro (⟨h, _⟩ | ⟨h, _⟩) <;> exact h
  · intro h
    cases hidx : arrayIndex name with
    | none => exact Or.inr ⟨h, by simp⟩
    | some n => exact Or.inl ⟨h, by simp⟩

theorem mem_advance (items : List ProbeItem) (h : Nat) (src dst : Stage) (j : ProbeItem)
    (hj : j ∈ advance items h src dst) :
    ∃ i ∈ items, j.bucket = i.bucket ∧ j.name = i.name ∧
      ((i.bucket = .bucket h ∧ i.stage = src ∧ j.stage = dst) ∨
       (¬ (i.bucket = .bucket h ∧ i.stage = src) ∧ j.stage = i.stage)) := by
  unfold advance at hj
  rw [List.mem_map] at hj
  obtain ⟨i, hi, hij⟩ := hj
  refine ⟨i, hi, ?_⟩
  by_cases hc : i.bucket = .bucket h ∧ i.stage = src
  · have : (i.bucket == .bucket h && i.stage == src) = true := by simp [hc.1, hc.2]
    rw [this] at hij
    subst hij
    exact ⟨rfl, rfl, Or.inl ⟨hc.1, hc.2, rfl⟩⟩
  · have : (i.bucket == .bucket h && i.stage == src) = false := by
      rw [Bool.eq_false_iff]
      intro ht
      simp at ht
      exact hc ht
    rw [this] at hij
    subst hij
    exact ⟨rfl, rfl, Or.inr ⟨hc, rfl⟩⟩

theorem advance_mem (items : List ProbeItem) (h : Nat) (src dst : Stage) (i : ProbeItem)
    (hi : i ∈ items) :
    ∃ j ∈ advance items h src dst, j.bucket = i.bucket ∧ j.name = i.name ∧
      ((i.bucket = .bucket h ∧ i.stage = src ∧ j.stage = dst) ∨
       (¬ (i.bucket = .bucket h ∧ i.stage = src) ∧ j.stage = i.stage)) := by
  unfold advance
  refine ⟨_, List.mem_map_of_mem _ hi, ?_⟩
  by_cases hc : (i.bucket == .bucket h && i.stage == src) = true
  · rw [if_pos hc]
    simp only [Bool.and_eq_true, beq_iff_eq] at hc
    exact ⟨rfl, rfl, Or.inl ⟨hc.1, hc.2, rfl⟩⟩
  · rw [if_neg hc]
    refine ⟨rfl, rfl, Or.inr ⟨?_, rfl⟩⟩
    intro hm
    apply hc
    simp [hm.1, hm.2]

theorem any_matching (items : List ProbeItem) (h : Nat) (src : Stage) :
    items.any (fun i => i.bucket == .bucket h && i.stage == src) = true ↔
      ∃ i ∈ items, i.bucket = .bucket h ∧ i.stage = src := by
  simp [List.any_eq_true]

theorem advance_pairs (items : List ProbeItem) (h : Nat) (src dst : Stage) :
    (advance items h src dst).map (fun i => (i.name, i.bucket)) =
      items.map (fun i => (i.name, i.bucket)) := by
  unfold advance
  rw [List.map_map]
  apply List.map_congr_left
  intro i _
  simp only [Function.comp]
  split <;> rfl

theorem checkDone_items (p : Probe) : p.checkDone.items = p.items := by
  unfold Probe.checkDone
  split
  · rfl
  · split <;> rfl

theorem checkDone_writes (p : Probe) : p.checkDone.writes = p.writes := by
  unfold Probe.checkDone
  split
  · rfl
  · split <;> rfl

theorem rejectWith_items (p : Probe) (e : Err) : (p.rejectWith e).items = p.items := by
  unfold Probe.rejectWith
  split <;> rfl

theorem rejectWith_writes (p : Probe) (e : Err) : (p.rejectWith e).writes = p.writes := by
  unfold Probe.rejectWith
  split <;> rfl

theorem checkDone_settled (p : Probe) (r : ProbeResult) (hr : p.result = some r) :
    p.checkDone.result = some r := by
  simp [Probe.checkDone, hr]

theorem rejectWith_settled (p : Probe) (e : Err) (r : ProbeResult) (hr : p.result = some r) :
    (p.rejectWith e).result = some r := by
  simp [Probe.rejectWith, hr]

/-- No event changes the names and the bucket objects of the items. -/
theorem step_pairs (p : Probe) (ev : ProbeEvent) :
    (p.step ev).items.map (fun i => (i.name, i.bucket)) =
      p.items.map (fun i => (i.name, i.bucket)) := by
  cases ev with
  | connect h => exact advance_pairs p.items h _ _
  | error h e =>
    simp only [Probe.step, Probe.onError]
    split
    · rw [rejectWith_items]
      exact advance_pairs p.items h _ _
    · rfl
  | written h =>
    simp only [Probe.step, Probe.writeCompleted]
    split
    · rw [checkDone_items]
      exact advance_pairs p.items h _ _
    · rfl
  | writeFailed h e =>
    simp only [Probe.step, Probe.writeCompleted]
    split
    · rw [rejectWith_items]
      exact advance_pairs p.items h _ _
    · rfl

theorem run_pairs (evs : List ProbeEvent) (p : Probe) :
    (p.run evs).items.map (fun i => (i.name, i.bucket)) =
      p.items.map (fun i => (i.name, i.bucket)) := by
  induction evs generalizing p with
  | nil => rfl
  | cons ev rest ih => exact (ih (p.step ev)).trans (step_pairs p ev)

/-- A settled promise stays as it is: later events are ignored. -/
theorem step_settled (p : Probe) (ev : ProbeEvent) (r : ProbeResult)
    (hr : p.result = some r) : (p.step ev).result = some r := by
  cases ev with
  | connect h => exact hr
  | error h e =>
    simp only [Probe.step, Probe.onError]
    split
    · exact rejectWith_settled _ e r hr
    · exact hr
  | written h =>
    simp only [Probe.step, Probe.writeCompleted]
    split
    · exact checkDone_settled _ r hr
    · exact hr
  | writeFailed h e =>
    simp only [Probe.step, Probe.writeCompleted]
    split
    · exact rejectWith_settled _ e r hr
    · exact hr

theorem run_settled (evs : List ProbeEvent) (p : Probe) (r : ProbeResult)
    (hr : p.result = some r) : (p.run evs).result = some r := by
  induction evs generalizing p with
  | nil => exact hr
  | cons ev rest ih => exact ih (p.step ev) (step_settled p ev r hr)

/-! ### The returned promise agrees with the items -/

theorem advance_keeps_written (items : List ProbeItem) (h : Nat) (src dst : Stage)
    (hsrc : src ≠ .written) (hall : ∀ i ∈ items, i.stage = .written) :
    ∀ j ∈ advance items h src dst, j.stage = .written := by
  intro j hj
  obtain ⟨i, hi, _, _, hcase⟩ := mem_advance items h src dst j hj
  rcases hcase with ⟨_, his, _⟩ | ⟨_, hjs⟩
  · exact absurd ((hall i hi).symm.trans his).symm hsrc
  · rw [hjs]; exact hall i hi

theorem advance_keeps_failure (items : List ProbeItem) (h : Nat) (src dst : Stage) (e : Err)
    (hsrc : src.failed = false)
    (hex : ∃ i ∈ items, i.stage = .connectFailed e ∨ i.stage = .writeFailed e) :
    ∃ j ∈ advance items h src dst, j.stage = .connectFailed e ∨ j.stage = .writeFailed e := by
  obtain ⟨i, hi, hst⟩ := hex
  obtain ⟨j, hj, _, _, hcase⟩ := advance_mem items h src dst i hi
  refine ⟨j, hj, ?_⟩
  rcases hcase with ⟨_, his, _⟩ | ⟨_, hjs⟩
  · exfalso
    rw [← his] at hsrc
    rcases hst with hst | hst <;> rw [hst] at hsrc <;> simp [Stage.failed] at hsrc
  · rw [hjs]; exact hst

theorem advance_no_failure (items : List ProbeItem) (h : Nat) (src dst : Stage)
    (hdst : dst.failed = false) (hno : ∀ i ∈ items, i.stage.failed = false) :
    ∀ j ∈ advance items h src dst, j.stage.failed = false := by
  intro j hj
  obtain ⟨i, hi, _, _, hcase⟩ := mem_advance items h src dst j hj
  rcases hcase with ⟨_, _, hjs⟩ | ⟨_, hjs⟩
  · rw [hjs]; exact hdst
  · rw [hjs]; exact hno i hi

theorem advance_moved (items : List ProbeItem) (h : Nat) (src dst : Stage)
    (hguard : items.any (fun i => i.bucket == .bucket h && i.stage == src) = true) :
    ∃ j ∈ advance items h src dst, j.stage = dst := by
  obtain ⟨i, hi, hm⟩ := (any_matching items h src).mp hguard
  obtain ⟨j, hj, _, _, hcase⟩ := advance_mem items h src dst i hi
  rcases hcase with ⟨_, _, hjs⟩ | ⟨hneg, _⟩
  · exact ⟨j, hj, hjs⟩
  · exact absurd hm hneg

theorem settled_onConnect (p : Probe) (h : Nat) (hinv : p.settledAsItems) :
    (p.onConnect h).settledAsItems := by
  unfold Probe.settledAsItems at hinv ⊢
  simp only [Probe.onConnect]
  cases hres : p.result with
  | none =>
    rw [hres] at hinv
    simp only at hinv ⊢
    obtain ⟨hno, i, hi, hnw⟩ := hinv
    refine ⟨advance_no_failure p.items h _ _ rfl hno, ?_⟩
    obtain ⟨j, hj, _, _, hcase⟩ := advance_mem p.items h .awaitingConnect .writing i hi
    refine ⟨j, hj, ?_⟩
    rcases hcase with ⟨_, _, hjs⟩ | ⟨_, hjs⟩
    · rw [hjs]; intro hc; cases hc
    · rw [hjs]; exact hnw
  | some r =>
    rw [hres] at hinv
    cases r with
    | fulfilledTrue =>
      simp only at hinv ⊢
      exact advance_keeps_written p.items h _ _ (by intro hc; cases hc) hinv
    | rejected e =>
      simp only at hinv ⊢
      exact advance_keeps_failure p.items h _ _ e rfl hinv

theorem settled_written (p : Probe) (h : Nat) (hinv : p.settledAsItems) :
    (p.writeCompleted h none).settledAsItems := by
  unfold Probe.writeCompleted
  split
  · rename_i hguard
    simp only []
    unfold Probe.settledAsItems at hinv
    cases hres : p.result with
    | none =>
      rw [hres] at hinv
      simp only at hinv
      obtain ⟨hno, _⟩ := hinv
      unfold Probe.checkDone
      simp only [hres]
      split
      · rename_i hall
        unfold Probe.settledAsItems
        simp only
        intro j hj
        have := (List.all_eq_true.mp hall) j hj
        simpa using this
      · rename_i hall
        unfold Probe.settledAsItems
        simp only [hres]
        refine ⟨advance_no_failure p.items h _ _ rfl hno, ?_⟩
        by_contra hcon
        apply hall
        rw [List.all_eq_true]
        intro j hj
        have : j.stage = .written := by
          by_contra hjn
          exact hcon ⟨j, hj, hjn⟩
        simp [this]
    | some r =>
      rw [hres] at hinv
      simp only [Probe.checkDone, Probe.settledAsItems]
      cases r with
      | fulfilledTrue =>
        simp only at hinv ⊢
        exact advance_keeps_written p.items h _ _ (by intro hc; cases hc) hinv
      | rejected e =>
        simp only at hinv ⊢
        exact advance_keeps_failure p.items h _ _ e rfl hinv
  · exact hinv

theorem settled_rejection (p : Probe) (h : Nat) (src dst : Stage) (e : Err)
    (hsrc : src.failed = false) (hsw : src ≠ .written)
    (hdst : dst = .connectFailed e ∨ dst = .writeFailed e)
    (hguard : p.items.any (fun i => i.bucket == .bucket h && i.stage == src) = true)
    (hinv : p.settledAsItems) :
    (Probe.rejectWith { p with items := advance p.items h src dst } e).settledAsItems := by
  unfold Probe.settledAsItems at hinv
  cases hres : p.result with
  | none =>
    simp only [Probe.rejectWith, Probe.settledAsItems]
    obtain ⟨j, hj, hjs⟩ := advance_moved p.items h src dst hguard
    refine ⟨j, hj, ?_⟩
    rw [hjs]
    exact hdst
  | some r =>
    rw [hres] at hinv
    simp only [Probe.rejectWith, Probe.settledAsItems]
    cases r with
    | fulfilledTrue =>
      simp only at hinv ⊢
      exact advance_keeps_written p.items h _ _ hsw hinv
    | rejected e' =>
      simp only at hinv ⊢
      exact advance_keeps_failure p.items h _ _ e' hsrc hinv

theorem step_settledAsItems (p : Probe) (ev : ProbeEvent) (hinv : p.settledAsItems) :
    (p.step ev).settledAsItems := by
  cases ev with
  | connect h => exact settled_onConnect p h hinv
  | error h e =>
    simp only [Probe.step, Probe.onError]
    split
    · rename_i hguard
      exact settled_rejection p h _ _ e rfl (by intro hc; cases hc) (Or.inl rfl) hguard hinv
    · exact hinv
  | written h => exact settled_written p h hinv
  | writeFailed h e =>
    simp only [Probe.step, Probe.writeCompleted]
    split
    · rename_i hguard
      exact settled_rejection p h _ _ e rfl (by intro hc; cases hc) (Or.inr rfl) hguard hinv
    · exact hinv

theorem run_settledAsItems (evs : List ProbeEvent) (p : Probe) (hinv : p.settledAsItems) :
    (p.run evs).settledAsItems := by
  induction evs generalizing p with
  | nil => exact hinv
  | cons ev rest ih => exact ih (p.step ev) (step_settledAsItems p ev hinv)

/-! ### The writes agree with the items -/

theorem advance_issued_iff (items : List ProbeItem) (h : Nat) (src dst : Stage)
    (hsame : src.issued = dst.issued) (k : Nat) :
    (∃ j ∈ advance items h src dst, j.bucket = .bucket k ∧ j.stage.issued = true) ↔
      ∃ i ∈ items, i.bucket = .bucket k ∧ i.stage.issued = true := by
  constructor
  · rintro ⟨j, hj, hjb, hji⟩
    obtain ⟨i, hi, hb, _, hcase⟩ := mem_advance items h src dst j hj
    refine ⟨i, hi, hb ▸ hjb, ?_⟩
    rcases hcase with ⟨_, his, hjs⟩ | ⟨_, hjs⟩
    · rw [his, hsame, ← hjs]; exact hji
    · rw [← hjs]; exact hji
  · rintro ⟨i, hi, hib, hii⟩
    obtain ⟨j, hj, hb, _, hcase⟩ := advance_mem items h src dst i hi
    refine ⟨j, hj, hb.trans hib, ?_⟩
    rcases hcase with ⟨_, his, hjs⟩ | ⟨_, hjs⟩
    · rw [hjs, ← hsame, ← his]; exact hii
    · rw [hjs]; exact hii

theorem advance_issued_length (items : List ProbeItem) (h : Nat) (src dst : Stage)
    (hsame : src.issued = dst.issued) :
    ((advance items h src dst).filter (fun i => i.stage.issued)).length =
      (items.filter (fun i => i.stage.issued)).length := by
  induction items with
  | nil => rfl
  | cons i rest ih =>
    have hrest : advance (i :: rest) h src dst =
        (if i.bucket == .bucket h && i.stage == src then { i with stage := dst } else i) ::
          advance rest h src dst := rfl
    rw [hrest]
    by_cases hm : (i.bucket == .bucket h && i.stage == src) = true
    · rw [if_pos hm]
      simp only [Bool.and_eq_true, beq_iff_eq] at hm
      have hi : i.stage.issued = dst.issued := by rw [hm.2, hsame]
      cases hd : dst.issued with
      | true =>
        rw [List.filter_cons_of_pos (by simpa using hd),
          List.filter_cons_of_pos (by simpa [hd] using hi)]
        simp [ih]
      | false =>
        rw [List.filter_cons_of_neg (by simpa using hd),
          List.filter_cons_of_neg (by simpa [hd] using hi)]
        exact ih
    · rw [if_neg hm]
      cases hd : i.stage.issued with
      | true =>
        rw [List.filter_cons_of_pos (by simpa using hd),
          List.filter_cons_of_pos (by simpa using hd)]
        simp [ih]
      | false =>
        rw [List.filter_cons_of_neg (by simpa using hd),
          List.filter_cons_of_neg (by simpa using hd)]
        exact ih

theorem writes_issued_same (p : Probe) (h : Nat) (src dst : Stage) (q : Probe)
    (hsame : src.issued = dst.issued) (hitems : q.items = advance p.items h src dst)
    (hwrites : q.writes = p.writes) (hinv : p.writesAsItems) : q.writesAsItems := by
  obtain ⟨h1, h2⟩ := hinv
  refine ⟨?_, ?_⟩
  · intro k
    rw [hwrites, hitems, h1 k]
    exact (advance_issued_iff p.items h src dst hsame k).symm
  · rw [hwrites, hitems, h2]
    exact (advance_issued_length p.items h src dst hsame).symm

theorem connect_issued_length (items : List ProbeItem) (h : Nat) :
    ((advance items h .awaitingConnect .writing).filter (fun i => i.stage.issued)).length =
      (items.filter (fun i => i.stage.issued)).length +
      (items.filter (fun i => i.bucket == .bucket h && i.stage == .awaitingConnect)).length := by
  induction items with
  | nil => rfl
  | cons i rest ih =>
    have hrest : advance (i :: rest) h .awaitingConnect .writing =
        (if i.bucket == .bucket h && i.stage == .awaitingConnect then
          { i with stage := .writing } else i) ::
          advance rest h .awaitingConnect .writing := rfl
    rw [hrest]
    by_cases hm : (i.bucket == .bucket h && i.stage == .awaitingConnect) = true
    · have hst : i.stage = .awaitingConnect := by
        simp only [Bool.and_eq_true, beq_iff_eq] at hm
        exact hm.2
      have hni : ¬ (i.stage.issued = true) := by rw [hst]; simp [Stage.issued]
      have a1 : (({ i with stage := .writing } : ProbeItem) ::
            advance rest h .awaitingConnect .writing).filter (fun i => i.stage.issued) =
          { i with stage := .writing } ::
            (advance rest h .awaitingConnect .writing).filter (fun i => i.stage.issued) :=
        List.filter_cons_of_pos rfl
      have a2 : (i :: rest).filter (fun i => i.stage.issued) =
          rest.filter (fun i => i.stage.issued) := List.filter_cons_of_neg hni
      have a3 : (i :: rest).filter
            (fun i => i.bucket == .bucket h && i.stage == .awaitingConnect) =
          i :: rest.filter (fun i => i.bucket == .bucket h && i.stage == .awaitingConnect) :=
        List.filter_cons_of_pos hm
      rw [if_pos hm, a1, a2, a3]
      simp only [List.length_cons, ih]
      omega
    · have a3 : (i :: rest).filter
            (fun i => i.bucket == .bucket h && i.stage == .awaitingConnect) =
          rest.filter (fun i => i.bucket == .bucket h && i.stage == .awaitingConnect) :=
        List.filter_cons_of_neg hm
      rw [if_neg hm, a3]
      by_cases hd : i.stage.issued = true
      · have a1 : (i :: advance rest h .awaitingConnect .writing).filter
              (fun i => i.stage.issued) =
            i :: (advance rest h .awaitingConnect .writing).filter (fun i => i.stage.issued) :=
          List.filter_cons_of_pos hd
        have a2 : (i :: rest).filter (fun i => i.stage.issued) =
            i :: rest.filter (fun i => i.stage.issued) := List.filter_cons_of_pos hd
        rw [a1, a2]
        simp only [List.length_cons, ih]
        omega
      · have a1 : (i :: advance rest h .awaitingConnect .writing).filter
              (fun i => i.stage.issued) =
            (advance rest h .awaitingConnect .writing).filter (fun i => i.stage.issued) :=
          List.filter_cons_of_neg hd
        have a2 : (i :: rest).filter (fun i => i.stage.issued) =
            rest.filter (fun i => i.stage.issued) := List.filter_cons_of_neg hd
        rw [a1, a2]
        exact ih

theorem writes_onConnect (p : Probe) (h : Nat) (hinv : p.writesAsItems) :
    (p.onConnect h).writesAsItems := by
  obtain ⟨h1, h2⟩ := hinv
  refine ⟨?_, ?_⟩
  · intro k
    simp only [Probe.onConnect, List.mem_append, List.mem_map, List.mem_filter,
      Bool.and_eq_true, beq_iff_eq]
    rw [h1 k]
    constructor
    · rintro (⟨i, hi, hib, hii⟩ | ⟨i, ⟨hi, hib, his⟩, hk⟩)
      · obtain ⟨j, hj, hb, _, hcase⟩ := advance_mem p.items h .awaitingConnect .writing i hi
        refine ⟨j, hj, hb.trans hib, ?_⟩
        rcases hcase with ⟨_, _, hjs⟩ | ⟨_, hjs⟩
        · rw [hjs]; rfl
        · rw [hjs]; exact hii
      · obtain ⟨j, hj, hb, _, hcase⟩ := advance_mem p.items h .awaitingConnect .writing i hi
        refine ⟨j, hj, ?_, ?_⟩
        · rw [hb, hib, hk]
        · rcases hcase with ⟨_, _, hjs⟩ | ⟨hneg, _⟩
          · rw [hjs]; rfl
          · exact absurd ⟨hib, his⟩ hneg
    · rintro ⟨j, hj, hjb, hji⟩
      obtain ⟨i, hi, hb, _, hcase⟩ := mem_advance p.items h .awaitingConnect .writing j hj
      rcases hcase with ⟨hib, his, _⟩ | ⟨_, hjs⟩
      · right
        refine ⟨i, ⟨hi, hib, his⟩, ?_⟩
        have : Value.bucket h = Value.bucket k := by rw [← hib, ← hb, hjb]
        injection this
      · left
        exact ⟨i, hi, hb ▸ hjb, hjs ▸ hji⟩
  · simp only [Probe.onConnect, List.length_append, List.length_map]
    rw [h2]
    exact (connect_issued_length p.items h).symm

theorem step_writesAsItems (p : Probe) (ev : ProbeEvent) (hinv : p.writesAsItems) :
    (p.step ev).writesAsItems := by
  cases ev with
  | connect h => exact writes_onConnect p h hinv
  | error h e =>
    simp only [Probe.step, Probe.onError]
    split
    · exact writes_issued_same p h .awaitingConnect (.connectFailed e) _ rfl
        (rejectWith_items _ e) (rejectWith_writes _ e) hinv
    · exact hinv
  | written h =>
    simp only [Probe.step, Probe.writeCompleted]
    split
    · exact writes_issued_same p h .writing .written _ rfl
        (checkDone_items _) (checkDone_writes _) hinv
    · exact hinv
  | writeFailed h e =>
    simp only [Probe.step, Probe.writeCompleted]
    split
    · exact writes_issued_same p h .writing (.writeFailed e) _ rfl
        (rejectWith_items _ e) (rejectWith_writes _ e) hinv
    · exact hinv

theorem run_writesAsItems (evs : List ProbeEvent) (p : Probe) (hinv : p.writesAsItems) :
    (p.run evs).writesAsItems := by
  induction evs generalizing p with
  | nil => exact hinv
  | cons ev rest ih => exact ih (p.step ev) (step_writesAsItems p ev hinv)

/-! ### The probe right after the mapped calls -/

theorem mapper_stage (later : Cluster) (name : String) :
    (∃ h, later.bucketAt name = .bucket h ∧
      (mapper later name).stage =
        if later.isConnected h then .writing else .awaitingConnect) ∨
    ((∀ h, later.bucketAt name ≠ .bucket h) ∧
      (mapper later name).stage = .connectFailed .typeError) := by
  unfold mapper
  cases hv : later.bucketAt name with
  | undefined =>
    right
    refine ⟨?_, rfl⟩
    intro h hc
    cases hc
  | inherited k =>
    right
    refine ⟨?_, rfl⟩
    intro h hc
    cases hc
  | bucket h =>
    left
    refine ⟨h, rfl, ?_⟩
    simp only [ensureConnected]
    cases later.isConnected h <;> rfl

theorem mapper_target (later : Cluster) (name : String) :
    (mapper later name).target.isSome = (mapper later name).stage.issued ∧
    (mapper later name).stage.issued = decide ((mapper later name).stage = .writing) ∧
    (∀ e, (mapper later name).stage ≠ .writeFailed e) ∧
    (mapper later name).stage ≠ .written ∧
    ((mapper later name).stage = .writing → ∃ h, (mapper later name).bucket = .bucket h) := by
  have hb : (mapper later name).bucket = later.bucketAt name := rfl
  rcases mapper_stage later name with ⟨h, hv, hst⟩ | ⟨hv, hst⟩
  · cases hc : later.isConnected h with
    | true =>
      rw [hc] at hst
      simp only [if_true] at hst
      refine ⟨?_, ?_, ?_, ?_, ?_⟩
      · simp [ProbeItem.target, hb, hv, hst, Stage.issued]
      · simp [hst, Stage.issued]
      · intro e; rw [hst]; intro hcon; cases hcon
      · rw [hst]; intro hcon; cases hcon
      · intro _; exact ⟨h, hb.trans hv⟩
    | false =>
      rw [hc] at hst
      simp only [Bool.false_eq_true, if_false] at hst
      refine ⟨?_, ?_, ?_, ?_, ?_⟩
      · simp [ProbeItem.target, hb, hv, hst, Stage.issued]
      · simp [hst, Stage.issued]
      · intro e; rw [hst]; intro hcon; cases hcon
      · rw [hst]; intro hcon; cases hcon
      · intro hw; rw [hst] at hw; cases hw
  · refine ⟨?_, ?_, ?_, ?_, ?_⟩
    · have : (mapper later name).target = none := by
        unfold ProbeItem.target
        rw [hb]
        cases hvv : later.bucketAt name with
        | undefined => rfl
        | inherited k => rfl
        | bucket h => exact absurd hvv (hv h)
      simp [this, hst, Stage.issued]
    · simp [hst, Stage.issued]
    · intro e; rw [hst]; intro hcon; cases hcon
    · rw [hst]; intro hcon; cases hcon
    · intro hw; rw [hst] at hw; cases hw

theorem firstRejection_some (items : List ProbeItem) (e : Err)
    (hf : firstRejection items = some e) : ∃ i ∈ items, i.stage = .connectFailed e := by
  induction items with
  | nil => cases hf
  | cons i rest ih =>
    unfold firstRejection at hf
    split at hf
    · rename_i e' hst
      cases hf
      exact ⟨i, List.mem_cons_self _ _, hst⟩
    · obtain ⟨j, hj, hjs⟩ := ih hf
      exact ⟨j, List.mem_cons_of_mem _ hj, hjs⟩

theorem firstRejection_none (items : List ProbeItem) (hf : firstRejection items = none) :
    ∀ i ∈ items, ∀ e, i.stage ≠ .connectFailed e := by
  induction items with
  | nil => intro i hi; cases hi
  | cons i rest ih =>
    unfold firstRejection at hf
    split at hf
    · cases hf
    · rename_i hne
      intro j hj e
      rcases List.mem_cons.mp hj with rfl | hj'
      · exact hne e
      · exact ih hf j hj' e

theorem inspectIntegrity_items (s later : Cluster) :
    (inspectIntegrity s later).items = (objectKeys s.buckets).map (mapper later) := by
  unfold inspectIntegrity
  simp only [checkDone_items]
  split
  · rw [rejectWith_items]
  · rfl

theorem inspectIntegrity_writes (s later : Cluster) :
    (inspectIntegrity s later).writes =
      ((objectKeys s.buckets).map (mapper later)).filterMap ProbeItem.target := by
  unfold inspectIntegrity
  simp only [checkDone_writes]
  split
  · rw [rejectWith_writes]
  · rfl

theorem inspectIntegrity_settledAsItems (s later : Cluster) :
    (inspectIntegrity s later).settledAsItems := by
  have hnw : ∀ i ∈ (objectKeys s.buckets).map (mapper later), ∀ e,
      i.stage ≠ .writeFailed e := by
    intro i hi e
    rw [List.mem_map] at hi
    obtain ⟨n, _, rfl⟩ := hi
    exact (mapper_target later n).2.2.1 e
  unfold inspectIntegrity
  simp only []
  cases hf : firstRejection ((objectKeys s.buckets).map (mapper later)) with
  | some e =>
    simp only [Probe.rejectWith, Probe.checkDone, Probe.settledAsItems]
    obtain ⟨i, hi, his⟩ := firstRejection_some _ e hf
    exact ⟨i, hi, Or.inl his⟩
  | none =>
    simp only [Probe.checkDone]
    split
    · rename_i hall
      simp only [Probe.settledAsItems]
      intro j hj
      have := (List.all_eq_true.mp hall) j hj
      simpa using this
    · rename_i hall
      simp only [Probe.settledAsItems]
      refine ⟨?_, ?_⟩
      · intro i hi
        have h1 := firstRejection_none _ hf i hi
        have h2 := hnw i hi
        cases hst : i.stage with
        | connectFailed e => exact absurd hst (h1 e)
        | writeFailed e => exact absurd hst (h2 e)
        | awaitingConnect => rfl
        | writing => rfl
        | written => rfl
      · by_contra hcon
        apply hall
        rw [List.all_eq_true]
        intro j hj
        have : j.stage = .written := by
          by_contra hjn
          exact hcon ⟨j, hj, hjn⟩
        simp [this]

theorem filterMap_target_length (items : List ProbeItem)
    (hall : ∀ i ∈ items, i.target.isSome = i.stage.issued) :
    (items.filterMap ProbeItem.target).length =
      (items.filter (fun i => i.stage.issued)).length := by
  induction items with
  | nil => rfl
  | cons i rest ih =>
    have hi := hall i (List.mem_cons_self _ _)
    have hrest := ih (fun j hj => hall j (List.mem_cons_of_mem _ hj))
    cases ht : i.target with
    | none =>
      rw [ht] at hi
      have hni : ¬ (i.stage.issued = true) := by
        rw [← hi]; simp
      have a2 : (i :: rest).filter (fun i => i.stage.issued) =
          rest.filter (fun i => i.stage.issued) := List.filter_cons_of_neg hni
      rw [List.filterMap_cons_none ht, a2]
      exact hrest
    | some k =>
      rw [ht] at hi
      have hii : i.stage.issued = true := by
        rw [← hi]; rfl
      have a2 : (i :: rest).filter (fun i => i.stage.issued) =
          i :: rest.filter (fun i => i.stage.issued) := List.filter_cons_of_pos hii
      rw [List.filterMap_cons_some ht, a2]
      simp only [List.length_cons, hrest]

theorem inspectIntegrity_writesAsItems (s later : Cluster) :
    (inspectIntegrity s later).writesAsItems := by
  unfold Probe.writesAsItems
  rw [inspectIntegrity_items, inspectIntegrity_writes]
  refine ⟨?_, ?_⟩
  · intro k
    rw [List.mem_filterMap]
    constructor
    · rintro ⟨i, hi, hik⟩
      refine ⟨i, hi, ?_⟩
      have hi' := hi
      rw [List.mem_map] at hi'
      obtain ⟨n, _, rfl⟩ := hi'
      have hsome := (mapper_target later n).1
      rw [hik] at hsome
      refine ⟨?_, hsome.symm⟩
      unfold ProbeItem.target at hik
      split at hik
      · rename_i h hb
        split at hik
        · cases hik
          exact hb
        · cases hik
      · cases hik
    · rintro ⟨i, hi, hib, hii⟩
      refine ⟨i, hi, ?_⟩
      have hi' := hi
      rw [List.mem_map] at hi'
      obtain ⟨n, _, rfl⟩ := hi'
      have hw := (mapper_target later n).2.1
      rw [hii] at hw
      have hst : (mapper later n).stage = .writing := by
        simpa using hw.symm
      simp [ProbeItem.target, hib, hst]
  · apply filterMap_target_length
    intro i hi
    rw [List.mem_map] at hi
    obtain ⟨n, _, rfl⟩ := hi
    exact (mapper_target later n).1

/-! ### The claim -/

/-- Claim C9, refuted: three connections are open and connected. When only the write on the
connection of `a` fails with an error, and when only the write on the connection of `b`
fails with that error, `inspectIntegrity` gives the same result, a rejection with that one
error; and when the writes of `a` and `b` both fail, the result is the error of the first
failure alone. In no case does the result name the connections whose write failed. Besides,
when the slot of `a` holds the bucket object of a failed attempt and `b` is connected, no
write is issued on the connection of `a`, and the promise is still pending after the only
write has succeeded. -/
theorem C9_counterexample :
    build optionsABC = .returned clusterABC ∧
    clusterABCOpen.buckets = [("a", 0), ("b", 1), ("c", 2)] ∧
    (inspectIntegrity clusterABCOpen clusterABCOpen).writes = [0, 1, 2] ∧
    ((inspectIntegrity clusterABCOpen clusterABCOpen).run
      [.writeFailed 0 (.writeError 5), .written 1, .written 2]).result =
        some (.rejected (.writeError 5)) ∧
    ((inspectIntegrity clusterABCOpen clusterABCOpen).run
      [.written 0, .writeFailed 1 (.writeError 5), .written 2]).result =
        some (.rejected (.writeError 5)) ∧
    ((inspectIntegrity clusterABCOpen clusterABCOpen).run
      [.writeFailed 0 (.writeError 5), .writeFailed 1 (.writeError 6), .written 2]).result =
        some (.rejected (.writeError 5)) ∧
    clusterAFailed.buckets = [("a", 0), ("b", 1)] ∧
    (inspectIntegrity clusterAFailed clusterAFailed).writes = [1] ∧
    ((inspectIntegrity clusterAFailed clusterAFailed).run [.written 1]).writes = [1] ∧
    ((inspectIntegrity clusterAFailed clusterAFailed).run [.written 1]).result = none := by
  decide

/-- Claim C9, amended: `inspectIntegrity` is called in a state `s`; the cluster goes through
any calls and notifications `acts` before the mapped calls run, and any events `evs`
(`connect` and `error` notifications, completions of writes) follow. Then:
the names probed are `Object.keys(buckets)` at the call, which are exactly the names that
hold a slot (names never opened are not probed), each with the bucket object of its slot;
when the mapped calls run, a write is issued at once on every probed connection that is
connected, and the others wait for their notification;
at every moment the writes issued are one for each probed connection that was connected
then or has signalled `connect` while waiting, whatever failed elsewhere, and none on the
others;
the returned promise is fulfilled with `true` exactly when the write of every probed
connection has succeeded, it is rejected exactly when the connection or the write of some
probed connection has failed, with the single error of such a failure and no name, it is
pending otherwise, and once settled it does not change. -/
theorem C9_probe_settles_as_items (s : Cluster) (acts : List Action)
    (evs : List ProbeEvent) :
    ((inspectIntegrity s (run s acts)).run evs).items.map (fun i => i.name) =
      objectKeys s.buckets ∧
    (∀ name, name ∈ objectKeys s.buckets ↔ (s.buckets.lookup name).isSome = true) ∧
    (∀ i ∈ ((inspectIntegrity s (run s acts)).run evs).items,
      ∃ h, i.bucket = .bucket h ∧ s.buckets.lookup i.name = some h) ∧
    (∀ i ∈ (inspectIntegrity s (run s acts)).items,
      ∃ h, i.bucket = .bucket h ∧
        i.stage = if (run s acts).isConnected h then .writing else .awaitingConnect) ∧
    (∀ h, h ∈ ((inspectIntegrity s (run s acts)).run evs).writes ↔
      ∃ i ∈ ((inspectIntegrity s (run s acts)).run evs).items,
        i.bucket = .bucket h ∧ i.stage.issued = true) ∧
    ((inspectIntegrity s (run s acts)).run evs).writes.length =
      (((inspectIntegrity s (run s acts)).run evs).items.filter
        (fun i => i.stage.issued)).length ∧
    (((inspectIntegrity s (run s acts)).run evs).result = some .fulfilledTrue ↔
      ∀ i ∈ ((inspectIntegrity s (run s acts)).run evs).items, i.stage = .written) ∧
    ((∃ e, ((inspectIntegrity s (run s acts)).run evs).result = some (.rejected e)) ↔
      ∃ i ∈ ((inspectIntegrity s (run s acts)).run evs).items, i.stage.failed = true) ∧
    (∀ e, ((inspectIntegrity s (run s acts)).run evs).result = some (.rejected e) →
      ∃ i ∈ ((inspectIntegrity s (run s acts)).run evs).items,
        i.stage = .connectFailed e ∨ i.stage = .writeFailed e) ∧
    (∀ r more, ((inspectIntegrity s (run s acts)).run evs).result = some r →
      (((inspectIntegrity s (run s acts)).run evs).run more).result = some r) := by
  have hslot : ∀ n ∈ objectKeys s.buckets,
      ∃ h, s.buckets.lookup n = some h ∧ (run s acts).bucketAt n = .bucket h := by
    intro n hn
    have hsome := (mem_objectKeys s.buckets n).mp hn
    cases hl : s.buckets.lookup n with
    | none => rw [hl] at hsome; cases hsome
    | some h => exact ⟨h, rfl, bucketAt_of_lookup _ n h (run_keeps_slot acts s n h hl)⟩
  have hpairs := run_pairs evs (inspectIntegrity s (run s acts))
  rw [inspectIntegrity_items, List.map_map] at hpairs
  have hsi := run_settledAsItems evs _ (inspectIntegrity_settledAsItems s (run s acts))
  have hwi := run_writesAsItems evs _ (inspectIntegrity_writesAsItems s (run s acts))
  refine ⟨?_, mem_objectKeys s.buckets, ?_, ?_, hwi.1, hwi.2, ?_, ?_, ?_, ?_⟩
  · have := congrArg (List.map Prod.fst) hpairs
    rw [List.map_map, List.map_map] at this
    rw [show ((fun i : ProbeItem => i.name) = Prod.fst ∘ fun i => (i.name, i.bucket)) from rfl,
      this]
    exact List.map_id _
  · intro i hi
    have hmem : (i.name, i.bucket) ∈
        List.map ((fun i => (i.name, i.bucket)) ∘ mapper (run s acts))
          (objectKeys s.buckets) := by
      rw [← hpairs]
      exact List.mem_map_of_mem (fun i : ProbeItem => (i.name, i.bucket)) hi
    rw [List.mem_map] at hmem
    obtain ⟨n, hn, heq⟩ := hmem
    obtain ⟨h, hl, hb⟩ := hslot n hn
    simp only [Function.comp, mapper, Prod.mk.injEq] at heq
    refine ⟨h, ?_, ?_⟩
    · rw [← heq.2, hb]
    · rw [← heq.1, hl]
  · intro i hi
    rw [inspectIntegrity_items, List.mem_map] at hi
    obtain ⟨n, hn, rfl⟩ := hi
    obtain ⟨h, _, hb⟩ := hslot n hn
    refine ⟨h, hb, ?_⟩
    rcases mapper_stage (run s acts) n with ⟨h', hv, hst⟩ | ⟨hv, _⟩
    · have : h' = h := by
        rw [hb] at hv
        injection hv with hv'
        exact hv'.symm
      rw [this] at hst
      exact hst
    · exact absurd hb (hv h)
  · unfold Probe.settledAsItems at hsi
    constructor
    · intro hres
      rw [hres] at hsi
      exact hsi
    · intro hall
      cases hres : ((inspectIntegrity s (run s acts)).run evs).result with
      | none =>
        rw [hres] at hsi
        obtain ⟨_, i, hi, hnw⟩ := hsi
        exact absurd (hall i hi) hnw
      | some r =>
        cases r with
        | fulfilledTrue => rfl
        | rejected e =>
          rw [hres] at hsi
          obtain ⟨i, hi, hst⟩ := hsi
          rw [hall i hi] at hst
          rcases hst with hst | hst <;> cases hst
  · unfold Probe.settledAsItems at hsi
    constructor
    · rintro ⟨e, hres⟩
      rw [hres] at hsi
      obtain ⟨i, hi, hst⟩ := hsi
      refine ⟨i, hi, ?_⟩
      rcases hst with hst | hst <;> rw [hst] <;> rfl
    · rintro ⟨i, hi, hf⟩
      cases hres : ((inspectIntegrity s (run s acts)).run evs).result with
      | none =>
        rw [hres] at hsi
        rw [hsi.1 i hi] at hf
        cases hf
      | some r =>
        cases r with
        | fulfilledTrue =>
          rw [hres] at hsi
          rw [hsi i hi] at hf
          cases hf
        | rejected e => exact ⟨e, rfl⟩
  · intro e hres
    unfold Probe.settledAsItems at hsi
    rw [hres] at hsi
    exact hsi
  · intro r more hres
    exact run_settled more _ r hres

/-- Claim C9, amended, instantiated: the names `b` and `1` are opened in this order, both
connections signal `connect` after the call and before the mapped calls run, and the two
writes succeed. The array index name `1` is probed first, one write is issued on each
connection, and the promise is fulfilled. -/
theorem C9_probe_settles_as_items_instance :
    ((inspectIntegrity (run clusterB1 [.openSync "b", .openSync "1"])
        (run (run clusterB1 [.openSync "b", .openSync "1"]) [.connect 0, .connect 1])).run
      [.written 1, .written 0]).items.map (fun i => i.name) = ["1", "b"] ∧
    ((inspectIntegrity (run clusterB1 [.openSync "b", .openSync "1"])
        (run (run clusterB1 [.openSync "b", .openSync "1"]) [.connect 0, .connect 1])).run
      [.written 1, .written 0]).writes = [1, 0] ∧
    ((inspectIntegrity (run clusterB1 [.openSync "b", .openSync "1"])
        (run (run clusterB1 [.openSync "b", .openSync "1"]) [.connect 0, .connect 1])).run
      [.written 1, .written 0]).result = some .fulfilledTrue :=
  have h := C9_probe_settles_as_items (run clusterB1 [.openSync "b", .openSync "1"])
    [.connect 0, .connect 1] [.written 1, .written 0]
  ⟨h.1.trans (by decide), by decide, h.2.2.2.2.2.2.1.mpr (by decide)⟩

end CouchbaseCluster
